import Mathlib

/-!
# Bayer raw image to RGB conversion (`ch2/understand-bayerRawImage.cpp`)

A shallow embedding of the `BayerToRGB` converter and of `stringToPattern`,
followed by theorems about the demosaicing scan and its four per-layout rules.

Modelling conventions.

* `int` values (dimensions, coordinates, vector indices) are mathematical
  integers.  Signed overflow is undefined in C++, so the constructor model
  `BayerToRGB.new` fails when `width * height * 3` is not a representable
  non-negative `int`; every index the scan evaluates is bounded by that product.
* `uint8_t` samples are natural numbers; the implicit narrowing of an `int`
  expression assigned to a `uint8_t` is `toUInt8`, an explicit `% 256`.
* `std::vector<uint8_t>` is `List Nat`; `operator[]` is a checked access that
  returns `none` outside the vector, so an out-of-range access makes the
  enclosing operation return `none`.
* `x % 2` on `int` is the truncating remainder `Int.tmod`.
-/

namespace BayerRaw

/-- The source's `enum BayerPattern`. -/
inductive BayerPattern where
  | RGGB
  | BGGR
  | GRBG
  | GBRG
  deriving DecidableEq

/-- The colour a sensor cell carries. -/
inductive Color where
  | R
  | G
  | B
  deriving DecidableEq

/-- Largest value of a 32-bit `int`. -/
def INT_MAX : Int := 2147483647

/-- The members of `class BayerToRGB`. -/
structure BayerToRGB where
  width : Int
  height : Int
  pattern : BayerPattern
  bayerData : List Nat
  rgbData : List Nat
  deriving DecidableEq

/-- Narrowing of an `int` value stored into a `uint8_t`. -/
def toUInt8 (n : Nat) : Nat := n % 256

/-- Checked `v[i]` for an `int` index. -/
def rd (v : List Nat) (i : Int) : Option Nat :=
  if 0 ≤ i then v[i.toNat]? else none

/-- Checked `v[i] = b` for an `int` index. -/
def wr (v : List Nat) (i : Int) (b : Nat) : Option (List Nat) :=
  if 0 ≤ i ∧ i.toNat < v.length then some (v.set i.toNat b) else none

/-- The constructor `BayerToRGB(w, h, p)`: both vectors are resized, hence
zero-filled.  It fails when `w * h` is negative (the `resize` throws) or when
`w * h * 3` overflows `int`. -/
def BayerToRGB.new (w h : Int) (p : BayerPattern) : Option BayerToRGB :=
  if 0 ≤ w * h ∧ w * h * 3 ≤ INT_MAX then
    some { width := w, height := h, pattern := p,
           bayerData := List.replicate (w * h).toNat 0,
           rgbData := List.replicate (w * h * 3).toNat 0 }
  else none

/-- The method `readBayerImage`, on the content of the named file (`none` when the
file cannot be opened).  `file.read` copies `width * height` bytes; with fewer
bytes available the stream is no longer good and the call reports failure. -/
def readBayerImage (s : BayerToRGB) (file : Option (List Nat)) : BayerToRGB × Bool :=
  match file with
  | none => (s, false)
  | some bytes =>
    let n := (s.width * s.height).toNat
    if bytes.length < n then
      ({ s with bayerData := bytes ++ s.bayerData.drop bytes.length }, false)
    else
      ({ s with bayerData := bytes.take n ++ s.bayerData.drop n }, true)

/-- The method `demosaicRGGB`, returning `(r, g, b)`. -/
def demosaicRGGB (s : BayerToRGB) (x y : Int) : Option (Nat × Nat × Nat) :=
  let idx := y * s.width + x
  if (y.tmod 2 = 0 ∧ x.tmod 2 = 0) ∨ (y.tmod 2 = 1 ∧ x.tmod 2 = 1) then
    if y.tmod 2 = 0 ∧ x.tmod 2 = 0 then do
      let r ← rd s.bayerData idx
      let g1 ← rd s.bayerData ((y - 1) * s.width + x)
      let g2 ← rd s.bayerData ((y + 1) * s.width + x)
      let g3 ← rd s.bayerData (y * s.width + (x - 1))
      let g4 ← rd s.bayerData (y * s.width + (x + 1))
      let b1 ← rd s.bayerData ((y - 1) * s.width + (x - 1))
      let b2 ← rd s.bayerData ((y - 1) * s.width + (x + 1))
      let b3 ← rd s.bayerData ((y + 1) * s.width + (x - 1))
      let b4 ← rd s.bayerData ((y + 1) * s.width + (x + 1))
      pure (r, toUInt8 ((g1 + g2 + g3 + g4) / 4), toUInt8 ((b1 + b2 + b3 + b4) / 4))
    else do
      let b ← rd s.bayerData idx
      let g1 ← rd s.bayerData ((y - 1) * s.width + x)
      let g2 ← rd s.bayerData ((y + 1) * s.width + x)
      let g3 ← rd s.bayerData (y * s.width + (x - 1))
      let g4 ← rd s.bayerData (y * s.width + (x + 1))
      let r1 ← rd s.bayerData ((y - 1) * s.width + (x - 1))
      let r2 ← rd s.bayerData ((y - 1) * s.width + (x + 1))
      let r3 ← rd s.bayerData ((y + 1) * s.width + (x - 1))
      let r4 ← rd s.bayerData ((y + 1) * s.width + (x + 1))
      pure (toUInt8 ((r1 + r2 + r3 + r4) / 4), toUInt8 ((g1 + g2 + g3 + g4) / 4), b)
  else do
    let g ← rd s.bayerData idx
    if y.tmod 2 = 0 then do
      let r1 ← rd s.bayerData (y * s.width + (x - 1))
      let r2 ← rd s.bayerData (y * s.width + (x + 1))
      let b1 ← rd s.bayerData ((y - 1) * s.width + x)
      let b2 ← rd s.bayerData ((y + 1) * s.width + x)
      pure (toUInt8 ((r1 + r2) / 2), g, toUInt8 ((b1 + b2) / 2))
    else do
      let b1 ← rd s.bayerData (y * s.width + (x - 1))
      let b2 ← rd s.bayerData (y * s.width + (x + 1))
      let r1 ← rd s.bayerData ((y - 1) * s.width + x)
      let r2 ← rd s.bayerData ((y + 1) * s.width + x)
      pure (toUInt8 ((r1 + r2) / 2), g, toUInt8 ((b1 + b2) / 2))

/-- The method `demosaicBGGR`, returning `(r, g, b)`. -/
def demosaicBGGR (s : BayerToRGB) (x y : Int) : Option (Nat × Nat × Nat) :=
  let idx := y * s.width + x
  if (y.tmod 2 = 0 ∧ x.tmod 2 = 0) ∨ (y.tmod 2 = 1 ∧ x.tmod 2 = 1) then
    if y.tmod 2 = 0 ∧ x.tmod 2 = 0 then do
      let b ← rd s.bayerData idx
      let g1 ← rd s.bayerData ((y - 1) * s.width + x)
      let g2 ← rd s.bayerData ((y + 1) * s.width + x)
      let g3 ← rd s.bayerData (y * s.width + (x - 1))
      let g4 ← rd s.bayerData (y * s.width + (x + 1))
      let r1 ← rd s.bayerData ((y - 1) * s.width + (x - 1))
      let r2 ← rd s.bayerData ((y - 1) * s.width + (x + 1))
      let r3 ← rd s.bayerData ((y + 1) * s.width + (x - 1))
      let r4 ← rd s.bayerData ((y + 1) * s.width + (x + 1))
      pure (toUInt8 ((r1 + r2 + r3 + r4) / 4), toUInt8 ((g1 + g2 + g3 + g4) / 4), b)
    else do
      let r ← rd s.bayerData idx
      let g1 ← rd s.bayerData ((y - 1) * s.width + x)
      let g2 ← rd s.bayerData ((y + 1) * s.width + x)
      let g3 ← rd s.bayerData (y * s.width + (x - 1))
      let g4 ← rd s.bayerData (y * s.width + (x + 1))
      let b1 ← rd s.bayerData ((y - 1) * s.width + (x - 1))
      let b2 ← rd s.bayerData ((y - 1) * s.width + (x + 1))
      let b3 ← rd s.bayerData ((y + 1) * s.width + (x - 1))
      let b4 ← rd s.bayerData ((y + 1) * s.width + (x + 1))
      pure (r, toUInt8 ((g1 + g2 + g3 + g4) / 4), toUInt8 ((b1 + b2 + b3 + b4) / 4))
  else do
    let g ← rd s.bayerData idx
    if y.tmod 2 = 0 then do
      let b1 ← rd s.bayerData (y * s.width + (x - 1))
      let b2 ← rd s.bayerData (y * s.width + (x + 1))
      let r1 ← rd s.bayerData ((y - 1) * s.width + x)
      let r2 ← rd s.bayerData ((y + 1) * s.width + x)
      pure (toUInt8 ((r1 + r2) / 2), g, toUInt8 ((b1 + b2) / 2))
    else do
      let r1 ← rd s.bayerData (y * s.width + (x - 1))
      let r2 ← rd s.bayerData (y * s.width + (x + 1))
      let b1 ← rd s.bayerData ((y - 1) * s.width + x)
      let b2 ← rd s.bayerData ((y + 1) * s.width + x)
      pure (toUInt8 ((r1 + r2) / 2), g, toUInt8 ((b1 + b2) / 2))

/-- The method `demosaicGRBG`, returning `(r, g, b)`. -/
def demosaicGRBG (s : BayerToRGB) (x y : Int) : Option (Nat × Nat × Nat) :=
  let idx := y * s.width + x
  if (y.tmod 2 = 0 ∧ x.tmod 2 = 1) ∨ (y.tmod 2 = 1 ∧ x.tmod 2 = 0) then
    if y.tmod 2 = 0 ∧ x.tmod 2 = 1 then do
      let r ← rd s.bayerData idx
      let g1 ← rd s.bayerData ((y - 1) * s.width + x)
      let g2 ← rd s.bayerData ((y + 1) * s.width + x)
      let g3 ← rd s.bayerData (y * s.width + (x - 1))
      let g4 ← rd s.bayerData (y * s.width + (x + 1))
      let b1 ← rd s.bayerData ((y - 1) * s.width + (x - 1))
      let b2 ← rd s.bayerData ((y - 1) * s.width + (x + 1))
      let b3 ← rd s.bayerData ((y + 1) * s.width + (x - 1))
      let b4 ← rd s.bayerData ((y + 1) * s.width + (x + 1))
      pure (r, toUInt8 ((g1 + g2 + g3 + g4) / 4), toUInt8 ((b1 + b2 + b3 + b4) / 4))
    else do
      let b ← rd s.bayerData idx
      let g1 ← rd s.bayerData ((y - 1) * s.width + x)
      let g2 ← rd s.bayerData ((y + 1) * s.width + x)
      let g3 ← rd s.bayerData (y * s.width + (x - 1))
      let g4 ← rd s.bayerData (y * s.width + (x + 1))
      let r1 ← rd s.bayerData ((y - 1) * s.width + (x - 1))
      let r2 ← rd s.bayerData ((y - 1) * s.width + (x + 1))
      let r3 ← rd s.bayerData ((y + 1) * s.width + (x - 1))
      let r4 ← rd s.bayerData ((y + 1) * s.width + (x + 1))
      pure (toUInt8 ((r1 + r2 + r3 + r4) / 4), toUInt8 ((g1 + g2 + g3 + g4) / 4), b)
  else do
    let g ← rd s.bayerData idx
    if y.tmod 2 = 0 then do
      let r1 ← rd s.bayerData (y * s.width + (x - 1))
      let r2 ← rd s.bayerData (y * s.width + (x + 1))
      let b1 ← rd s.bayerData ((y - 1) * s.width + x)
      let b2 ← rd s.bayerData ((y + 1) * s.width + x)
      pure (toUInt8 ((r1 + r2) / 2), g, toUInt8 ((b1 + b2) / 2))
    else do
      let b1 ← rd s.bayerData (y * s.width + (x - 1))
      let b2 ← rd s.bayerData (y * s.width + (x + 1))
      let r1 ← rd s.bayerData ((y - 1) * s.width + x)
      let r2 ← rd s.bayerData ((y + 1) * s.width + x)
      pure (toUInt8 ((r1 + r2) / 2), g, toUInt8 ((b1 + b2) / 2))

/-- The method `demosaicGBRG`, returning `(r, g, b)`. -/
def demosaicGBRG (s : BayerToRGB) (x y : Int) : Option (Nat × Nat × Nat) :=
  let idx := y * s.width + x
  if (y.tmod 2 = 0 ∧ x.tmod 2 = 1) ∨ (y.tmod 2 = 1 ∧ x.tmod 2 = 0) then
    if y.tmod 2 = 0 ∧ x.tmod 2 = 1 then do
      let b ← rd s.bayerData idx
      let g1 ← rd s.bayerData ((y - 1) * s.width + x)
      let g2 ← rd s.bayerData ((y + 1) * s.width + x)
      let g3 ← rd s.bayerData (y * s.width + (x - 1))
      let g4 ← rd s.bayerData (y * s.width + (x + 1))
      let r1 ← rd s.bayerData ((y - 1) * s.width + (x - 1))
      let r2 ← rd s.bayerData ((y - 1) * s.width + (x + 1))
      let r3 ← rd s.bayerData ((y + 1) * s.width + (x - 1))
      let r4 ← rd s.bayerData ((y + 1) * s.width + (x + 1))
      pure (toUInt8 ((r1 + r2 + r3 + r4) / 4), toUInt8 ((g1 + g2 + g3 + g4) / 4), b)
    else do
      let r ← rd s.bayerData idx
      let g1 ← rd s.bayerData ((y - 1) * s.width + x)
      let g2 ← rd s.bayerData ((y + 1) * s.width + x)
      let g3 ← rd s.bayerData (y * s.width + (x - 1))
      let g4 ← rd s.bayerData (y * s.width + (x + 1))
      let b1 ← rd s.bayerData ((y - 1) * s.width + (x - 1))
      let b2 ← rd s.bayerData ((y - 1) * s.width + (x + 1))
      let b3 ← rd s.bayerData ((y + 1) * s.width + (x - 1))
      let b4 ← rd s.bayerData ((y + 1) * s.width + (x + 1))
      pure (r, toUInt8 ((g1 + g2 + g3 + g4) / 4), toUInt8 ((b1 + b2 + b3 + b4) / 4))
  else do
    let g ← rd s.bayerData idx
    if y.tmod 2 = 0 then do
      let b1 ← rd s.bayerData (y * s.width + (x - 1))
      let b2 ← rd s.bayerData (y * s.width + (x + 1))
      let r1 ← rd s.bayerData ((y - 1) * s.width + x)
      let r2 ← rd s.bayerData ((y + 1) * s.width + x)
      pure (toUInt8 ((r1 + r2) / 2), g, toUInt8 ((b1 + b2) / 2))
    else do
      let r1 ← rd s.bayerData (y * s.width + (x - 1))
      let r2 ← rd s.bayerData (y * s.width + (x + 1))
      let b1 ← rd s.bayerData ((y - 1) * s.width + x)
      let b2 ← rd s.bayerData ((y + 1) * s.width + x)
      pure (toUInt8 ((r1 + r2) / 2), g, toUInt8 ((b1 + b2) / 2))

/-- The `switch (pattern)` of `demosaic`: the rule of the configured layout. -/
def demosaicRule (s : BayerToRGB) (x y : Int) : Option (Nat × Nat × Nat) :=
  match s.pattern with
  | .RGGB => demosaicRGGB s x y
  | .BGGR => demosaicBGGR s x y
  | .GRBG => demosaicGRBG s x y
  | .GBRG => demosaicGBRG s x y

/-- The body of the inner loop of `demosaic` at `(x, y)`. -/
def demosaicPixel (s : BayerToRGB) (x y : Int) : Option BayerToRGB := do
  let idx := y * s.width + x
  let rgbIdx := idx * 3
  let (r, g, b) ← demosaicRule s x y
  let d1 ← wr s.rgbData rgbIdx r
  let d2 ← wr d1 (rgbIdx + 1) g
  let d3 ← wr d2 (rgbIdx + 2) b
  pure { s with rgbData := d3 }

/-- The values `lo, lo + 1, ..., hi - 1` of a counter of
`for (int i = lo; i < hi; i++)`. -/
def intRange (lo hi : Int) : List Int :=
  (List.range (hi - lo).toNat).map (fun (k : Nat) => lo + (k : Int))

/-- The inner loop of `demosaic` for row `y`. -/
def demosaicRow (s : BayerToRGB) (y : Int) : Option BayerToRGB :=
  (intRange 1 (s.width - 1)).foldlM (fun st x => demosaicPixel st x y) s

/-- The method `demosaic`. -/
def demosaic (s : BayerToRGB) : Option BayerToRGB :=
  (intRange 1 (s.height - 1)).foldlM (fun st y => demosaicRow st y) s

/-- The function `stringToPattern`; `Except.error n` is `exit(n)`. -/
def stringToPattern (patternStr : String) : Except Nat BayerPattern :=
  if patternStr = "RGGB" then .ok .RGGB
  else if patternStr = "BGGR" then .ok .BGGR
  else if patternStr = "GRBG" then .ok .GRBG
  else if patternStr = "GBRG" then .ok .GBRG
  else .error 1

/-- The 2x2 tile of each layout, as drawn in the header comment of the source:
`tile p i j` is the colour in row `i`, column `j` of the tile. -/
def tile : BayerPattern → Nat → Nat → Color
  | .RGGB, 0, 0 => .R
  | .RGGB, 0, _ => .G
  | .RGGB, _, 0 => .G
  | .RGGB, _, _ => .B
  | .BGGR, 0, 0 => .B
  | .BGGR, 0, _ => .G
  | .BGGR, _, 0 => .G
  | .BGGR, _, _ => .R
  | .GRBG, 0, 0 => .G
  | .GRBG, 0, _ => .R
  | .GRBG, _, 0 => .B
  | .GRBG, _, _ => .G
  | .GBRG, 0, 0 => .G
  | .GBRG, 0, _ => .B
  | .GBRG, _, 0 => .R
  | .GBRG, _, _ => .G

/-- The colour of the sensor cell in row `y`, column `x`: the tile repeated from
`(0, 0)`. -/
def cellColor (p : BayerPattern) (y x : Int) : Color :=
  tile p (y % 2).toNat (x % 2).toNat

/-- The raw sample of the cell in row `y`, column `x`. -/
def sample (s : BayerToRGB) (x y : Int) : Option Nat :=
  rd s.bayerData (y * s.width + x)

/-- The data-model invariant of a converter: positive dimensions, a mosaic of
`width * height` 8-bit samples and an RGB buffer of `width * height * 3` bytes. -/
def WF (s : BayerToRGB) : Prop :=
  0 < s.width ∧ 0 < s.height ∧
  (s.bayerData.length : Int) = s.width * s.height ∧
  (s.rgbData.length : Int) = s.width * s.height * 3 ∧
  ∀ v ∈ s.bayerData, v < 256

instance (s : BayerToRGB) : Decidable (WF s) := by
  unfold WF; infer_instance

/-- The coordinate `(x, y)` is strictly inside the image. -/
def Interior (s : BayerToRGB) (x y : Int) : Prop :=
  1 ≤ x ∧ x ≤ s.width - 2 ∧ 1 ≤ y ∧ y ≤ s.height - 2

instance (s : BayerToRGB) (x y : Int) : Decidable (Interior s x y) := by
  unfold Interior; infer_instance

/-- The sample stored for row `r`, column `c` (0 outside the vector). -/
def cell (s : BayerToRGB) (r c : Int) : Nat :=
  s.bayerData.getD (r * s.width + c).toNat 0

/-- Stored average of the four orthogonal neighbours. -/
def orth4 (s : BayerToRGB) (x y : Int) : Nat :=
  toUInt8 ((cell s (y - 1) x + cell s (y + 1) x + cell s y (x - 1) + cell s y (x + 1)) / 4)

/-- Stored average of the four diagonal neighbours. -/
def diag4 (s : BayerToRGB) (x y : Int) : Nat :=
  toUInt8 ((cell s (y - 1) (x - 1) + cell s (y - 1) (x + 1) +
    cell s (y + 1) (x - 1) + cell s (y + 1) (x + 1)) / 4)

/-- Stored average of the left and right neighbours. -/
def horiz2 (s : BayerToRGB) (x y : Int) : Nat :=
  toUInt8 ((cell s y (x - 1) + cell s y (x + 1)) / 2)

/-- Stored average of the upper and lower neighbours. -/
def vert2 (s : BayerToRGB) (x y : Int) : Nat :=
  toUInt8 ((cell s (y - 1) x + cell s (y + 1) x) / 2)

/-- The fields a pixel write leaves alone, and the length of the RGB buffer. -/
def Frame (s t : BayerToRGB) : Prop :=
  t.width = s.width ∧ t.height = s.height ∧ t.pattern = s.pattern ∧
  t.bayerData = s.bayerData ∧ t.rgbData.length = s.rgbData.length

/-- Row of the pixel that byte `j` of the RGB buffer belongs to. -/
def rowOf (w : Int) (j : Nat) : Int := ((j : Int) / 3) / w

/-- Column of the pixel that byte `j` of the RGB buffer belongs to. -/
def colOf (w : Int) (j : Nat) : Int := ((j : Int) / 3) % w

/-- Channel `k` of a triple: 0 is red, 1 is green, anything else blue. -/
def chan (t : Nat × Nat × Nat) (k : Nat) : Nat :=
  if k = 0 then t.1 else if k = 1 then t.2.1 else t.2.2

/-- What the scan stores in byte `j` when that byte belongs to an interior pixel. -/
def target (s : BayerToRGB) (j : Nat) : Option Nat :=
  (demosaicRule s (colOf s.width j) (rowOf s.width j)).map (fun t => chan t (j % 3))

/-- Byte `j` of the RGB buffer belongs to an interior pixel of a `w` by `h` image. -/
def InteriorByte (w h : Int) (j : Nat) : Prop :=
  1 ≤ rowOf w j ∧ rowOf w j ≤ h - 2 ∧ 1 ≤ colOf w j ∧ colOf w j ≤ w - 2

/-- The RGB triple of output pixel `(x, y)`: the three bytes of the RGB buffer at
indices `3 * (y * width + x)`, `+ 1` and `+ 2`. -/
def rgbAt (s : BayerToRGB) (x y : Int) : Option (Nat × Nat × Nat) := do
  let r ← rd s.rgbData (3 * (y * s.width + x))
  let g ← rd s.rgbData (3 * (y * s.width + x) + 1)
  let b ← rd s.rgbData (3 * (y * s.width + x) + 2)
  pure (r, g, b)

/-- The mosaic of the 5x5 end-to-end scenario. -/
def mosaic5 : List Nat :=
  [10, 20, 10, 20, 10,
   30, 40, 30, 40, 30,
   10, 20, 10, 20, 10,
   30, 40, 30, 40, 30,
   10, 20, 10, 20, 10]

/-- A 5x5 converter holding `mosaic5`, with a zero-filled RGB buffer. -/
def conv5 (p : BayerPattern) : BayerToRGB :=
  { width := 5, height := 5, pattern := p, bayerData := mosaic5,
    rgbData := List.replicate 75 0 }

/-- The other chroma colour: blue for red, red for blue. -/
def opposite : Color → Color
  | .R => .B
  | .B => .R
  | .G => .G

/-- A 3x3 converter with layout `p` whose mosaic has the two given samples left
and right of the centre and zero elsewhere. -/
def conv3 (p : BayerPattern) (left right : Nat) : BayerToRGB :=
  { width := 3, height := 3, pattern := p,
    bayerData := [0, 0, 0, left, 0, right, 0, 0, 0],
    rgbData := List.replicate 27 0 }

/-- The text `saveRGBImage` puts in front of the pixel data:
`"P6\n" << width << " " << height << "\n255\n"`, the two `int`s in decimal. -/
def ppmHeader (w h : Int) : String :=
  "P6\n" ++ toString w ++ " " ++ toString h ++ "\n255\n"

/-- The bytes of `ppmHeader`. -/
def ppmHeaderBytes (w h : Int) : List Nat :=
  (ppmHeader w h).toList.map Char.toNat

/-- The method `saveRGBImage`, given whether the output file can be opened.  The
result is the content of the written file (`none` when no file is written) and
the returned flag; the call as a whole is `none` when `file.write` would read
outside `rgbData`. -/
def saveRGBImage (s : BayerToRGB) (canOpen : Bool) : Option (Option (List Nat) × Bool) :=
  if canOpen then
    if 0 ≤ s.width * s.height * 3 ∧ (s.width * s.height * 3).toNat ≤ s.rgbData.length then
      some (some (ppmHeaderBytes s.width s.height ++
        s.rgbData.take (s.width * s.height * 3).toNat), true)
    else none
  else some (none, false)

/-- The value of the run of decimal digits at the front of `cs`, continuing from
`acc`. -/
def atoiDigits : List Char → Int → Int
  | [], acc => acc
  | c :: cs, acc =>
    if 48 ≤ c.toNat ∧ c.toNat ≤ 57 then atoiDigits cs (acc * 10 + ((c.toNat - 48 : Nat) : Int))
    else acc

/-- The C library's `atoi`: leading white space is skipped, then an optional sign
and the longest run of decimal digits are converted; 0 when there is no digit.
The result is `none` (undefined in C) when the value is not a representable
`int`. -/
def atoi (str : String) : Option Int :=
  let cs := str.toList.dropWhile (fun c => decide (c.toNat = 32 ∨ (9 ≤ c.toNat ∧ c.toNat ≤ 13)))
  let v : Int :=
    match cs with
    | [] => 0
    | c :: rest =>
      if c.toNat = 45 then - atoiDigits rest 0
      else if c.toNat = 43 then atoiDigits rest 0
      else atoiDigits (c :: rest) 0
  if -INT_MAX - 1 ≤ v ∧ v ≤ INT_MAX then some v else none

/-- What a run of `main` leaves behind: the exit status, the converter if one was
constructed (in its last state), whether `readBayerImage` was called, and the
content of the output file if one was written. -/
structure MainResult where
  status : Nat
  converter : Option BayerToRGB
  inputRead : Bool
  output : Option (List Nat)
  deriving DecidableEq

/-- The part of `main` after the argument count check, on `argv[1]` .. `argv[4]`
and the output file name. -/
def mainBody (widthStr heightStr patternStr inputFile outputFile : String)
    (readFile : String → Option (List Nat)) (canCreate : String → Bool) : Option MainResult := do
  let width ← atoi widthStr
  let height ← atoi heightStr
  if width ≤ 0 ∨ height ≤ 0 then
    pure { status := 1, converter := none, inputRead := false, output := none }
  else
    match stringToPattern patternStr with
    | .error n => pure { status := n, converter := none, inputRead := false, output := none }
    | .ok pattern => do
      let converter ← BayerToRGB.new width height pattern
      let (converter, ok) := readBayerImage converter (readFile inputFile)
      if !ok then
        pure { status := 1, converter := some converter, inputRead := true, output := none }
      else do
        let converter ← demosaic converter
        let (out, saved) ← saveRGBImage converter (canCreate outputFile)
        if !saved then
          pure { status := 1, converter := some converter, inputRead := true, output := out }
        else
          pure { status := 0, converter := some converter, inputRead := true, output := out }

/-- The function `main` on the argument vector (program name first), the content
of each readable file and the files that can be created.  `none` stands for a
run whose behaviour C++ leaves undefined or that ends in an uncaught
exception. -/
def main (argv : List String) (readFile : String → Option (List Nat))
    (canCreate : String → Bool) : Option MainResult :=
  match argv with
  | [_, a1, a2, a3, a4] => mainBody a1 a2 a3 a4 "output_rgb.ppm" readFile canCreate
  | [_, a1, a2, a3, a4, a5] => mainBody a1 a2 a3 a4 a5 readFile canCreate
  | _ => some { status := 1, converter := none, inputRead := false, output := none }

/-- The triple with its red and blue channels exchanged. -/
def swapRB (t : Nat × Nat × Nat) : Nat × Nat × Nat := (t.2.2, t.2.1, t.1)

/-- The minimum of nine samples. -/
def min9 (a b c d e f g h i : Nat) : Nat :=
  min a (min b (min c (min d (min e (min f (min g (min h i)))))))

/-- The maximum of nine samples. -/
def max9 (a b c d e f g h i : Nat) : Nat :=
  max a (max b (max c (max d (max e (max f (max g (max h i)))))))

/-! ## Reads inside the image -/

theorem index_bound (w h r c : Int) (hr0 : 0 ≤ r) (hr : r < h) (hc0 : 0 ≤ c) (hc : c < w) :
    0 ≤ r * w + c ∧ r * w + c < w * h := by
  have hw : 0 ≤ w := by omega
  have h1 : 0 ≤ r * w := mul_nonneg hr0 hw
  have h2 : (r + 1) * w ≤ h * w := mul_le_mul_of_nonneg_right (by omega) hw
  have h3 : (r + 1) * w = r * w + w := by ring
  have h4 : h * w = w * h := mul_comm h w
  constructor <;> omega

theorem rd_cell (s : BayerToRGB) (hlen : (s.bayerData.length : Int) = s.width * s.height)
    (r c : Int) (hr0 : 0 ≤ r) (hr : r < s.height) (hc0 : 0 ≤ c) (hc : c < s.width) :
    rd s.bayerData (r * s.width + c) = some (cell s r c) := by
  obtain ⟨h0, h1⟩ := index_bound s.width s.height r c hr0 hr hc0 hc
  have hlt : (r * s.width + c).toNat < s.bayerData.length := by omega
  simp [rd, cell, h0, List.getD_eq_getElem?_getD, List.getElem?_eq_getElem hlt]

theorem cell_lt (s : BayerToRGB) (hwf : WF s)
    (r c : Int) (hr0 : 0 ≤ r) (hr : r < s.height) (hc0 : 0 ≤ c) (hc : c < s.width) :
    cell s r c < 256 := by
  obtain ⟨_, _, hlen, _, hb⟩ := hwf
  obtain ⟨h0, h1⟩ := index_bound s.width s.height r c hr0 hr hc0 hc
  have hlt : (r * s.width + c).toNat < s.bayerData.length := by omega
  apply hb
  simp [cell, List.getD_eq_getElem?_getD, List.getElem?_eq_getElem hlt]

theorem window (s : BayerToRGB)
    (hlen : (s.bayerData.length : Int) = s.width * s.height) (x y : Int)
    (hint : Interior s x y) :
    rd s.bayerData (y * s.width + x) = some (cell s y x) ∧
    rd s.bayerData (y * s.width + (x - 1)) = some (cell s y (x - 1)) ∧
    rd s.bayerData (y * s.width + (x + 1)) = some (cell s y (x + 1)) ∧
    rd s.bayerData ((y - 1) * s.width + x) = some (cell s (y - 1) x) ∧
    rd s.bayerData ((y - 1) * s.width + (x - 1)) = some (cell s (y - 1) (x - 1)) ∧
    rd s.bayerData ((y - 1) * s.width + (x + 1)) = some (cell s (y - 1) (x + 1)) ∧
    rd s.bayerData ((y + 1) * s.width + x) = some (cell s (y + 1) x) ∧
    rd s.bayerData ((y + 1) * s.width + (x - 1)) = some (cell s (y + 1) (x - 1)) ∧
    rd s.bayerData ((y + 1) * s.width + (x + 1)) = some (cell s (y + 1) (x + 1)) := by
  obtain ⟨hx1, hx2, hy1, hy2⟩ := hint
  refine ⟨?_, ?_, ?_, ?_, ?_, ?_, ?_, ?_, ?_⟩ <;>
    exact rd_cell s hlen _ _ (by omega) (by omega) (by omega) (by omega)

theorem demosaicRGGB_eval (s : BayerToRGB)
    (hlen : (s.bayerData.length : Int) = s.width * s.height) (x y : Int)
    (hint : Interior s x y) :
    demosaicRGGB s x y = some (
      if y % 2 = 0 ∧ x % 2 = 0 then (cell s y x, orth4 s x y, diag4 s x y)
      else if y % 2 = 1 ∧ x % 2 = 1 then (diag4 s x y, orth4 s x y, cell s y x)
      else if y % 2 = 0 then (horiz2 s x y, cell s y x, vert2 s x y)
      else (vert2 s x y, cell s y x, horiz2 s x y)) := by
  obtain ⟨c00, c0m, c0p, cm0, cmm, cmp, cp0, cpm, cpp⟩ := window s hlen x y hint
  obtain ⟨hx1, hx2, hy1, hy2⟩ := hint
  have ty : y.tmod 2 = y % 2 := Int.tmod_eq_emod (by omega) (by omega)
  have tx : x.tmod 2 = x % 2 := Int.tmod_eq_emod (by omega) (by omega)
  simp only [demosaicRGGB, ty, tx, c00, c0m, c0p, cm0, cmm, cmp, cp0, cpm, cpp,
    orth4, diag4, horiz2, vert2, Option.bind_eq_bind, Option.some_bind, Option.pure_def]
  split_ifs <;> first | rfl | omega

theorem demosaicBGGR_eval (s : BayerToRGB)
    (hlen : (s.bayerData.length : Int) = s.width * s.height) (x y : Int)
    (hint : Interior s x y) :
    demosaicBGGR s x y = some (
      if y % 2 = 0 ∧ x % 2 = 0 then (diag4 s x y, orth4 s x y, cell s y x)
      else if y % 2 = 1 ∧ x % 2 = 1 then (cell s y x, orth4 s x y, diag4 s x y)
      else if y % 2 = 0 then (vert2 s x y, cell s y x, horiz2 s x y)
      else (horiz2 s x y, cell s y x, vert2 s x y)) := by
  obtain ⟨c00, c0m, c0p, cm0, cmm, cmp, cp0, cpm, cpp⟩ := window s hlen x y hint
  obtain ⟨hx1, hx2, hy1, hy2⟩ := hint
  have ty : y.tmod 2 = y % 2 := Int.tmod_eq_emod (by omega) (by omega)
  have tx : x.tmod 2 = x % 2 := Int.tmod_eq_emod (by omega) (by omega)
  simp only [demosaicBGGR, ty, tx, c00, c0m, c0p, cm0, cmm, cmp, cp0, cpm, cpp,
    orth4, diag4, horiz2, vert2, Option.bind_eq_bind, Option.some_bind, Option.pure_def]
  split_ifs <;> first | rfl | omega

theorem demosaicGRBG_eval (s : BayerToRGB)
    (hlen : (s.bayerData.length : Int) = s.width * s.height) (x y : Int)
    (hint : Interior s x y) :
    demosaicGRBG s x y = some (
      if y % 2 = 0 ∧ x % 2 = 1 then (cell s y x, orth4 s x y, diag4 s x y)
      else if y % 2 = 1 ∧ x % 2 = 0 then (diag4 s x y, orth4 s x y, cell s y x)
      else if y % 2 = 0 then (horiz2 s x y, cell s y x, vert2 s x y)
      else (vert2 s x y, cell s y x, horiz2 s x y)) := by
  obtain ⟨c00, c0m, c0p, cm0, cmm, cmp, cp0, cpm, cpp⟩ := window s hlen x y hint
  obtain ⟨hx1, hx2, hy1, hy2⟩ := hint
  have ty : y.tmod 2 = y % 2 := Int.tmod_eq_emod (by omega) (by omega)
  have tx : x.tmod 2 = x % 2 := Int.tmod_eq_emod (by omega) (by omega)
  simp only [demosaicGRBG, ty, tx, c00, c0m, c0p, cm0, cmm, cmp, cp0, cpm, cpp,
    orth4, diag4, horiz2, vert2, Option.bind_eq_bind, Option.some_bind, Option.pure_def]
  split_ifs <;> first | rfl | omega

theorem demosaicGBRG_eval (s : BayerToRGB)
    (hlen : (s.bayerData.length : Int) = s.width * s.height) (x y : Int)
    (hint : Interior s x y) :
    demosaicGBRG s x y = some (
      if y % 2 = 0 ∧ x % 2 = 1 then (diag4 s x y, orth4 s x y, cell s y x)
      else if y % 2 = 1 ∧ x % 2 = 0 then (cell s y x, orth4 s x y, diag4 s x y)
      else if y % 2 = 0 then (vert2 s x y, cell s y x, horiz2 s x y)
      else (horiz2 s x y, cell s y x, vert2 s x y)) := by
  obtain ⟨c00, c0m, c0p, cm0, cmm, cmp, cp0, cpm, cpp⟩ := window s hlen x y hint
  obtain ⟨hx1, hx2, hy1, hy2⟩ := hint
  have ty : y.tmod 2 = y % 2 := Int.tmod_eq_emod (by omega) (by omega)
  have tx : x.tmod 2 = x % 2 := Int.tmod_eq_emod (by omega) (by omega)
  simp only [demosaicGBRG, ty, tx, c00, c0m, c0p, cm0, cmm, cmp, cp0, cpm, cpp,
    orth4, diag4, horiz2, vert2, Option.bind_eq_bind, Option.some_bind, Option.pure_def]
  split_ifs <;> first | rfl | omega

theorem demosaicRule_some (s : BayerToRGB)
    (hlen : (s.bayerData.length : Int) = s.width * s.height) (x y : Int)
    (hint : Interior s x y) : ∃ t, demosaicRule s x y = some t := by
  unfold demosaicRule
  cases s.pattern
  · exact ⟨_, demosaicRGGB_eval s hlen x y hint⟩
  · exact ⟨_, demosaicBGGR_eval s hlen x y hint⟩
  · exact ⟨_, demosaicGRBG_eval s hlen x y hint⟩
  · exact ⟨_, demosaicGBRG_eval s hlen x y hint⟩

/-! ## The scan: which bytes each step writes -/

theorem Frame.refl (s : BayerToRGB) : Frame s s := ⟨rfl, rfl, rfl, rfl, rfl⟩

theorem Frame.trans {s t u : BayerToRGB} (h1 : Frame s t) (h2 : Frame t u) : Frame s u := by
  obtain ⟨a1, a2, a3, a4, a5⟩ := h1
  obtain ⟨b1, b2, b3, b4, b5⟩ := h2
  exact ⟨b1.trans a1, b2.trans a2, b3.trans a3, b4.trans a4, b5.trans a5⟩

theorem decode (w x y : Int) (k j : Nat) (hx0 : 0 ≤ x) (hx : x < w) (hk : k < 3)
    (hj : (j : Int) = (y * w + x) * 3 + k) :
    rowOf w j = y ∧ colOf w j = x ∧ j % 3 = k := by
  have hp : (j : Int) / 3 = x + y * w := by omega
  have hw : w ≠ 0 := by omega
  refine ⟨?_, ?_, by omega⟩
  · unfold rowOf
    rw [hp, Int.add_mul_ediv_right _ _ hw, Int.ediv_eq_zero_of_lt hx0 hx]
    simp
  · unfold colOf
    rw [hp, Int.add_mul_emod_self, Int.emod_eq_of_lt hx0 hx]

theorem encode (w x y : Int) (j : Nat) (hr : rowOf w j = y) (hc : colOf w j = x) :
    ∃ k : Nat, k < 3 ∧ k = j % 3 ∧ (j : Int) = (y * w + x) * 3 + k := by
  have h := Int.ediv_add_emod ((j : Int) / 3) w
  unfold rowOf at hr
  unfold colOf at hc
  rw [hr, hc] at h
  have h2 : w * y = y * w := mul_comm w y
  refine ⟨j % 3, by omega, rfl, ?_⟩
  push_cast
  omega

theorem mem_intRange (lo hi a : Int) : a ∈ intRange lo hi ↔ lo ≤ a ∧ a < hi := by
  simp only [intRange, List.mem_map, List.mem_range]
  constructor
  · rintro ⟨k, hk, rfl⟩
    omega
  · rintro ⟨h1, h2⟩
    exact ⟨(a - lo).toNat, by omega, by omega⟩

theorem foldlM_frame {α : Type} (f : BayerToRGB → α → Option BayerToRGB)
    (owns : α → Nat → Prop) (tgt : Nat → Option Nat) (sb : BayerToRGB) (L : List α)
    (hstep : ∀ a ∈ L, ∀ st, Frame sb st → ∃ st', f st a = some st' ∧ Frame st st' ∧
      ∀ j, (owns a j → st'.rgbData[j]? = tgt j) ∧ (¬ owns a j → st'.rgbData[j]? = st.rgbData[j]?))
    (s0 : BayerToRGB) (h0 : Frame sb s0) :
    ∃ sN, L.foldlM f s0 = some sN ∧ Frame s0 sN ∧
      ∀ j, ((∃ a ∈ L, owns a j) → sN.rgbData[j]? = tgt j) ∧
           ((∀ a ∈ L, ¬ owns a j) → sN.rgbData[j]? = s0.rgbData[j]?) := by
  induction L generalizing s0 with
  | nil =>
    exact ⟨s0, rfl, Frame.refl s0, fun j => ⟨by simp, fun _ => rfl⟩⟩
  | cons a L ih =>
    obtain ⟨s1, hf, hfr1, hj1⟩ := hstep a (List.mem_cons_self a L) s0 h0
    obtain ⟨sN, hfold, hfrN, hjN⟩ :=
      ih (fun b hb st hst => hstep b (List.mem_cons_of_mem a hb) st hst) s1 (h0.trans hfr1)
    refine ⟨sN, ?_, hfr1.trans hfrN, fun j => ⟨?_, ?_⟩⟩
    · simp [List.foldlM_cons, hf, hfold]
    · rintro ⟨b, hb, hown⟩
      by_cases htail : ∃ c ∈ L, owns c j
      · exact (hjN j).1 htail
      · have hnone : ∀ c ∈ L, ¬ owns c j := fun c hc ho => htail ⟨c, hc, ho⟩
        rw [(hjN j).2 hnone]
        rcases List.mem_cons.1 hb with rfl | hbL
        · exact (hj1 j).1 hown
        · exact absurd hown (hnone b hbL)
    · intro hnone
      rw [(hjN j).2 (fun c hc => hnone c (List.mem_cons_of_mem a hc))]
      exact (hj1 j).2 (hnone a (List.mem_cons_self a L))

theorem demosaicRule_congr (s t : BayerToRGB) (h : Frame s t) (x y : Int) :
    demosaicRule t x y = demosaicRule s x y := by
  obtain ⟨hw, _, hp, hb, _⟩ := h
  simp only [demosaicRule, demosaicRGGB, demosaicBGGR, demosaicGRBG, demosaicGBRG, hw, hp, hb]

theorem wr_some (v : List Nat) (i : Int) (b : Nat) (h0 : 0 ≤ i) (h1 : i.toNat < v.length) :
    wr v i b = some (v.set i.toNat b) := by
  simp [wr, h0, h1]

theorem demosaicPixel_step (s0 st : BayerToRGB) (x y : Int) (t : Nat × Nat × Nat)
    (hrgb : (s0.rgbData.length : Int) = s0.width * s0.height * 3)
    (hfr : Frame s0 st) (hint : Interior s0 x y) (hrule : demosaicRule s0 x y = some t) :
    ∃ st', demosaicPixel st x y = some st' ∧ Frame st st' ∧
      ∀ j, (rowOf s0.width j = y ∧ colOf s0.width j = x → st'.rgbData[j]? = target s0 j) ∧
           (¬ (rowOf s0.width j = y ∧ colOf s0.width j = x) →
              st'.rgbData[j]? = st.rgbData[j]?) := by
  obtain ⟨hx1, hx2, hy1, hy2⟩ := hint
  obtain ⟨r, g, b⟩ := t
  have hfr' := hfr
  obtain ⟨hw, hh, hp, hb, hl⟩ := hfr
  obtain ⟨i0, i1⟩ := index_bound s0.width s0.height y x (by omega) (by omega) (by omega) (by omega)
  have hrule' : demosaicRule st x y = some (r, g, b) := by
    rw [demosaicRule_congr s0 st hfr', hrule]
  have e1 : ((y * s0.width + x) * 3 + 1).toNat = ((y * s0.width + x) * 3).toNat + 1 := by omega
  have e2 : ((y * s0.width + x) * 3 + 2).toNat = ((y * s0.width + x) * 3).toNat + 2 := by omega
  have w1 := wr_some st.rgbData ((y * s0.width + x) * 3) r (by omega) (by omega)
  have w2 := wr_some (st.rgbData.set ((y * s0.width + x) * 3).toNat r)
    ((y * s0.width + x) * 3 + 1) g (by omega) (by rw [List.length_set]; omega)
  have w3 := wr_some ((st.rgbData.set ((y * s0.width + x) * 3).toNat r).set
    ((y * s0.width + x) * 3 + 1).toNat g)
    ((y * s0.width + x) * 3 + 2) b (by omega) (by rw [List.length_set, List.length_set]; omega)
  refine ⟨{ st with rgbData := ((st.rgbData.set ((y * s0.width + x) * 3).toNat r).set
    ((y * s0.width + x) * 3 + 1).toNat g).set ((y * s0.width + x) * 3 + 2).toNat b }, ?_, ?_, ?_⟩
  · simp only [demosaicPixel, hrule', hw, w1, w2, w3, Option.bind_eq_bind, Option.some_bind,
      Option.pure_def]
  · exact ⟨rfl, rfl, rfl, rfl, by simp⟩
  · intro j
    simp only [e1, e2, List.getElem?_set, List.length_set]
    constructor
    · rintro ⟨hr, hc⟩
      obtain ⟨k, hk3, hkj, hj⟩ := encode s0.width x y j hr hc
      have ht : target s0 j = some (chan (r, g, b) (j % 3)) := by
        simp only [target, hr, hc, hrule, Option.map_some']
      rw [ht]
      have hlen : ((y * s0.width + x) * 3).toNat + 2 < st.rgbData.length := by omega
      have hc0 : k = 0 ∨ k = 1 ∨ k = 2 := by omega
      rcases hc0 with h | h | h
      · have hj0 : ((y * s0.width + x) * 3).toNat = j := by omega
        have hm : j % 3 = 0 := by omega
        simp [hj0, hm, chan]
        omega
      · have hj0 : ((y * s0.width + x) * 3).toNat + 1 = j := by omega
        have hm : j % 3 = 1 := by omega
        have hne : ¬ ((y * s0.width + x) * 3).toNat + 2 = j := by omega
        simp [hj0, hm, hne, chan]
        omega
      · have hj0 : ((y * s0.width + x) * 3).toNat + 2 = j := by omega
        have hm : j % 3 = 2 := by omega
        simp [hj0, hm, chan]
        omega
    · intro hnot
      have hne : ∀ k : Nat, k < 3 → ¬ ((y * s0.width + x) * 3).toNat + k = j := by
        intro k hk hj
        apply hnot
        have := decode s0.width x y k j (by omega) (by omega) hk (by omega)
        exact ⟨this.1, this.2.1⟩
      have n0 := hne 0 (by omega)
      have n1 := hne 1 (by omega)
      have n2 := hne 2 (by omega)
      simp only [Nat.add_zero] at n0
      simp [n0, n1, n2]

theorem demosaicRow_step (s0 st : BayerToRGB) (y : Int)
    (hlen : (s0.bayerData.length : Int) = s0.width * s0.height)
    (hrgb : (s0.rgbData.length : Int) = s0.width * s0.height * 3)
    (hfr : Frame s0 st) (hy1 : 1 ≤ y) (hy2 : y ≤ s0.height - 2) :
    ∃ st', demosaicRow st y = some st' ∧ Frame st st' ∧
      ∀ j, (rowOf s0.width j = y ∧ 1 ≤ colOf s0.width j ∧ colOf s0.width j ≤ s0.width - 2 →
              st'.rgbData[j]? = target s0 j) ∧
           (¬ (rowOf s0.width j = y ∧ 1 ≤ colOf s0.width j ∧ colOf s0.width j ≤ s0.width - 2) →
              st'.rgbData[j]? = st.rgbData[j]?) := by
  have key := foldlM_frame (fun u x => demosaicPixel u x y)
    (fun x j => rowOf s0.width j = y ∧ colOf s0.width j = x) (target s0) s0
    (intRange 1 (s0.width - 1))
    (by
      intro x hx u hu
      have hx' := (mem_intRange _ _ _).1 hx
      have hint : Interior s0 x y := ⟨hx'.1, by omega, hy1, hy2⟩
      obtain ⟨t, ht⟩ := demosaicRule_some s0 hlen x y hint
      exact demosaicPixel_step s0 u x y t hrgb hu hint ht)
    st hfr
  obtain ⟨sN, hfold, hfrN, hj⟩ := key
  refine ⟨sN, ?_, hfrN, fun j => ⟨?_, ?_⟩⟩
  · unfold demosaicRow
    rw [hfr.1]
    exact hfold
  · rintro ⟨hr, hc1, hc2⟩
    exact (hj j).1 ⟨colOf s0.width j, (mem_intRange _ _ _).2 ⟨hc1, by omega⟩, hr, rfl⟩
  · intro hnot
    refine (hj j).2 ?_
    rintro x hx ⟨hr, hc⟩
    have hx' := (mem_intRange _ _ _).1 hx
    exact hnot ⟨hr, by omega, by omega⟩

theorem demosaic_spec (s : BayerToRGB)
    (hlen : (s.bayerData.length : Int) = s.width * s.height)
    (hrgb : (s.rgbData.length : Int) = s.width * s.height * 3) :
    ∃ s', demosaic s = some s' ∧ Frame s s' ∧
      ∀ j, (InteriorByte s.width s.height j → s'.rgbData[j]? = target s j) ∧
           (¬ InteriorByte s.width s.height j → s'.rgbData[j]? = s.rgbData[j]?) := by
  have key := foldlM_frame (fun u y => demosaicRow u y)
    (fun y j => rowOf s.width j = y ∧ 1 ≤ colOf s.width j ∧ colOf s.width j ≤ s.width - 2)
    (target s) s (intRange 1 (s.height - 1))
    (by
      intro y hy u hu
      have hy' := (mem_intRange _ _ _).1 hy
      exact demosaicRow_step s u y hlen hrgb hu hy'.1 (by omega))
    s (Frame.refl s)
  obtain ⟨sN, hfold, hfrN, hj⟩ := key
  refine ⟨sN, hfold, hfrN, fun j => ⟨?_, ?_⟩⟩
  · rintro ⟨hr1, hr2, hc1, hc2⟩
    exact (hj j).1 ⟨rowOf s.width j, (mem_intRange _ _ _).2 ⟨hr1, by omega⟩, rfl, hc1, hc2⟩
  · intro hnot
    refine (hj j).2 ?_
    rintro y hy ⟨hr, hc1, hc2⟩
    have hy' := (mem_intRange _ _ _).1 hy
    exact hnot ⟨by omega, by omega, hc1, hc2⟩

theorem rgbAt_of_bytes (s : BayerToRGB) (x y : Int) (r g b : Nat) (j : Nat)
    (hj : (j : Int) = (y * s.width + x) * 3)
    (h0 : s.rgbData[j]? = some r) (h1 : s.rgbData[j + 1]? = some g)
    (h2 : s.rgbData[j + 2]? = some b) : rgbAt s x y = some (r, g, b) := by
  have a0 : (3 * (y * s.width + x)).toNat = j := by omega
  have a1 : (3 * (y * s.width + x) + 1).toNat = j + 1 := by omega
  have a2 : (3 * (y * s.width + x) + 2).toNat = j + 2 := by omega
  have p0 : 0 ≤ 3 * (y * s.width + x) := by omega
  have p1 : 0 ≤ 3 * (y * s.width + x) + 1 := by omega
  have p2 : 0 ≤ 3 * (y * s.width + x) + 2 := by omega
  simp only [rgbAt, rd, p0, p1, p2, a0, a1, a2, h0, h1, h2, if_true, Option.bind_eq_bind,
    Option.some_bind, Option.pure_def]

theorem demosaic_rgbAt_interior (s s' : BayerToRGB) (hfr : Frame s s')
    (hj : ∀ j, InteriorByte s.width s.height j → s'.rgbData[j]? = target s j)
    (x y : Int) (hint : Interior s x y) (t : Nat × Nat × Nat)
    (ht : demosaicRule s x y = some t) : rgbAt s' x y = some t := by
  obtain ⟨r, g, b⟩ := t
  obtain ⟨hx1, hx2, hy1, hy2⟩ := hint
  obtain ⟨i0, _⟩ := index_bound s.width s.height y x (by omega) (by omega) (by omega) (by omega)
  have hbyte : ∀ k : Nat, k < 3 →
      s'.rgbData[((y * s.width + x) * 3).toNat + k]? = some (chan (r, g, b) k) := by
    intro k hk
    obtain ⟨dr, dc, dk⟩ := decode s.width x y k (((y * s.width + x) * 3).toNat + k)
      (by omega) (by omega) hk (by omega)
    rw [hj _ ⟨by omega, by omega, by omega, by omega⟩]
    simp only [target, dr, dc, dk, ht, Option.map_some']
  have b0 := hbyte 0 (by omega)
  have b1 := hbyte 1 (by omega)
  have b2 := hbyte 2 (by omega)
  simp only [chan, Nat.add_zero] at b0 b1 b2
  exact rgbAt_of_bytes s' x y r g b ((y * s.width + x) * 3).toNat
    (by rw [hfr.1]; omega) b0 (by simpa using b1) (by simpa using b2)

theorem demosaic_rgbAt_border (s s' : BayerToRGB) (hfr : Frame s s')
    (hj : ∀ j, ¬ InteriorByte s.width s.height j → s'.rgbData[j]? = s.rgbData[j]?)
    (x y : Int) (hx0 : 0 ≤ x) (hx : x < s.width) (hy0 : 0 ≤ y) (hy : y < s.height)
    (hb : y = 0 ∨ y = s.height - 1 ∨ x = 0 ∨ x = s.width - 1) :
    rgbAt s' x y = rgbAt s x y := by
  obtain ⟨i0, _⟩ := index_bound s.width s.height y x hy0 hy hx0 hx
  have hbyte : ∀ k : Nat, k < 3 →
      s'.rgbData[(3 * (y * s.width + x) + (k : Int)).toNat]? =
        s.rgbData[(3 * (y * s.width + x) + (k : Int)).toNat]? := by
    intro k hk
    obtain ⟨dr, dc, _⟩ := decode s.width x y k (3 * (y * s.width + x) + (k : Int)).toNat
      hx0 hx hk (by omega)
    apply hj
    unfold InteriorByte
    rw [dr, dc]
    omega
  have b0 := hbyte 0 (by omega)
  have b1 := hbyte 1 (by omega)
  have b2 := hbyte 2 (by omega)
  simp only [Nat.cast_zero, add_zero, Nat.cast_one, Nat.cast_ofNat] at b0 b1 b2
  simp only [rgbAt, rd, hfr.1, b0, b1, b2]

/-! ## The rules against the colour tile -/

theorem parity_cases (y : Int) :
    (y % 2 = 0 ∧ (y - 1) % 2 = 1 ∧ (y + 1) % 2 = 1) ∨
    (y % 2 = 1 ∧ (y - 1) % 2 = 0 ∧ (y + 1) % 2 = 0) := by omega

/-- The rule of every layout, read off the colour tile. -/
theorem demosaicRule_eval (s : BayerToRGB)
    (hlen : (s.bayerData.length : Int) = s.width * s.height) (x y : Int)
    (hint : Interior s x y) :
    demosaicRule s x y = some (
      match cellColor s.pattern y x with
      | .R => (cell s y x, orth4 s x y, diag4 s x y)
      | .B => (diag4 s x y, orth4 s x y, cell s y x)
      | .G =>
        if cellColor s.pattern y (x - 1) = .R then (horiz2 s x y, cell s y x, vert2 s x y)
        else (vert2 s x y, cell s y x, horiz2 s x y)) := by
  have e1 := demosaicRGGB_eval s hlen x y hint
  have e2 := demosaicBGGR_eval s hlen x y hint
  have e3 := demosaicGRBG_eval s hlen x y hint
  have e4 := demosaicGBRG_eval s hlen x y hint
  unfold demosaicRule
  rcases parity_cases y with ⟨hy, hym, hyp⟩ | ⟨hy, hym, hyp⟩ <;>
  rcases parity_cases x with ⟨hx, hxm, hxp⟩ | ⟨hx, hxm, hxp⟩ <;>
  cases hp : s.pattern <;>
  simp [e1, e2, e3, e4, cellColor, tile, hy, hx, hxm]

/-- Colours around a red or blue cell: the diagonal neighbours carry the opposite
chroma colour and the orthogonal neighbours are green. -/
theorem chroma_neighbours (p : BayerPattern) (x y : Int) (h : cellColor p y x ≠ .G) :
    cellColor p (y - 1) (x - 1) = opposite (cellColor p y x) ∧
    cellColor p (y - 1) (x + 1) = opposite (cellColor p y x) ∧
    cellColor p (y + 1) (x - 1) = opposite (cellColor p y x) ∧
    cellColor p (y + 1) (x + 1) = opposite (cellColor p y x) ∧
    cellColor p (y - 1) x = .G ∧ cellColor p (y + 1) x = .G ∧
    cellColor p y (x - 1) = .G ∧ cellColor p y (x + 1) = .G := by
  revert h
  rcases parity_cases y with ⟨hy, hym, hyp⟩ | ⟨hy, hym, hyp⟩ <;>
  rcases parity_cases x with ⟨hx, hxm, hxp⟩ | ⟨hx, hxm, hxp⟩ <;>
  cases p <;>
  simp [cellColor, tile, opposite, hy, hx, hxm, hxp, hym, hyp]

/-- Colours around a green cell: the left and right neighbours carry one chroma
colour, the upper and lower neighbours the other. -/
theorem green_neighbours (p : BayerPattern) (x y : Int) (h : cellColor p y x = .G) :
    cellColor p y (x - 1) ≠ .G ∧
    cellColor p y (x + 1) = cellColor p y (x - 1) ∧
    cellColor p (y - 1) x = opposite (cellColor p y (x - 1)) ∧
    cellColor p (y + 1) x = opposite (cellColor p y (x - 1)) := by
  revert h
  rcases parity_cases y with ⟨hy, hym, hyp⟩ | ⟨hy, hym, hyp⟩ <;>
  rcases parity_cases x with ⟨hx, hxm, hxp⟩ | ⟨hx, hxm, hxp⟩ <;>
  cases p <;>
  simp [cellColor, tile, opposite, hy, hx, hxm, hxp, hym, hyp]

theorem toUInt8_avg4 (a b c d : Nat) (ha : a < 256) (hb : b < 256) (hc : c < 256)
    (hd : d < 256) : toUInt8 ((a + b + c + d) / 4) = (a + b + c + d) / 4 := by
  unfold toUInt8
  omega

theorem toUInt8_avg2 (a b : Nat) (ha : a < 256) (hb : b < 256) :
    toUInt8 ((a + b) / 2) = (a + b) / 2 := by
  unfold toUInt8
  omega

/-- Inside a well-formed image the stored averages are the exact floor averages. -/
theorem averages_exact (s : BayerToRGB) (hwf : WF s) (x y : Int) (hint : Interior s x y) :
    orth4 s x y =
      (cell s (y - 1) x + cell s (y + 1) x + cell s y (x - 1) + cell s y (x + 1)) / 4 ∧
    diag4 s x y =
      (cell s (y - 1) (x - 1) + cell s (y - 1) (x + 1) +
        cell s (y + 1) (x - 1) + cell s (y + 1) (x + 1)) / 4 ∧
    horiz2 s x y = (cell s y (x - 1) + cell s y (x + 1)) / 2 ∧
    vert2 s x y = (cell s (y - 1) x + cell s (y + 1) x) / 2 := by
  obtain ⟨hx1, hx2, hy1, hy2⟩ := hint
  have l0m := cell_lt s hwf y (x - 1) (by omega) (by omega) (by omega) (by omega)
  have l0p := cell_lt s hwf y (x + 1) (by omega) (by omega) (by omega) (by omega)
  have lm0 := cell_lt s hwf (y - 1) x (by omega) (by omega) (by omega) (by omega)
  have lmm := cell_lt s hwf (y - 1) (x - 1) (by omega) (by omega) (by omega) (by omega)
  have lmp := cell_lt s hwf (y - 1) (x + 1) (by omega) (by omega) (by omega) (by omega)
  have lp0 := cell_lt s hwf (y + 1) x (by omega) (by omega) (by omega) (by omega)
  have lpm := cell_lt s hwf (y + 1) (x - 1) (by omega) (by omega) (by omega) (by omega)
  have lpp := cell_lt s hwf (y + 1) (x + 1) (by omega) (by omega) (by omega) (by omega)
  exact ⟨toUInt8_avg4 _ _ _ _ lm0 lp0 l0m l0p, toUInt8_avg4 _ _ _ _ lmm lmp lpm lpp,
    toUInt8_avg2 _ _ l0m l0p, toUInt8_avg2 _ _ lm0 lp0⟩

/-! ## Fresh converters and degenerate images -/

theorem rggb_row (x y : Int) :
    (cellColor .RGGB y x = .R → y % 2 = 0) ∧ (cellColor .RGGB y x = .B → y % 2 = 1) := by
  rcases parity_cases y with ⟨hy, _, _⟩ | ⟨hy, _, _⟩ <;>
  rcases parity_cases x with ⟨hx, _, _⟩ | ⟨hx, _, _⟩ <;>
  simp [cellColor, tile, hy, hx]

theorem new_eq (w h : Int) (p : BayerPattern) (s0 : BayerToRGB)
    (hnew : BayerToRGB.new w h p = some s0) :
    0 ≤ w * h ∧ w * h * 3 ≤ INT_MAX ∧
    s0 = { width := w, height := h, pattern := p,
           bayerData := List.replicate (w * h).toNat 0,
           rgbData := List.replicate (w * h * 3).toNat 0 } := by
  unfold BayerToRGB.new at hnew
  split_ifs at hnew with hc
  exact ⟨hc.1, hc.2, (Option.some.inj hnew).symm⟩

theorem rgbAt_zero (s : BayerToRGB) (n : Nat) (hz : s.rgbData = List.replicate n 0)
    (hn : (n : Int) = s.width * s.height * 3) (x y : Int)
    (hx0 : 0 ≤ x) (hx : x < s.width) (hy0 : 0 ≤ y) (hy : y < s.height) :
    rgbAt s x y = some (0, 0, 0) := by
  obtain ⟨i0, i1⟩ := index_bound s.width s.height y x hy0 hy hx0 hx
  refine rgbAt_of_bytes s x y 0 0 0 ((y * s.width + x) * 3).toNat (by omega) ?_ ?_ ?_ <;>
  · rw [hz, List.getElem?_replicate, if_pos (by omega)]

theorem intRange_nil (lo hi : Int) (h : hi ≤ lo) : intRange lo hi = [] := by
  have : (hi - lo).toNat = 0 := by omega
  simp [intRange, this]

theorem foldlM_fixed {α : Type} (f : BayerToRGB → α → Option BayerToRGB) (s : BayerToRGB)
    (L : List α) (h : ∀ a ∈ L, f s a = some s) : L.foldlM f s = some s := by
  induction L with
  | nil => rfl
  | cons a L ih =>
    rw [List.foldlM_cons, h a (List.mem_cons_self a L)]
    exact ih (fun b hb => h b (List.mem_cons_of_mem a hb))

theorem demosaic_degenerate (s : BayerToRGB) (hdeg : s.width < 3 ∨ s.height < 3) :
    demosaic s = some s := by
  unfold demosaic
  rcases hdeg with hw | hh
  · apply foldlM_fixed
    intro y _
    unfold demosaicRow
    rw [intRange_nil 1 (s.width - 1) (by omega)]
    rfl
  · rw [intRange_nil 1 (s.height - 1) (by omega)]
    rfl

/-! ## Frame, locality, writer, `main` and monotonicity -/

theorem target_congr (s t : BayerToRGB) (h : Frame s t) (j : Nat) : target t j = target s j := by
  unfold target
  rw [h.1, demosaicRule_congr s t h]

theorem rd_border_byte (s s' : BayerToRGB)
    (hrgb : (s.rgbData.length : Int) = s.width * s.height * 3)
    (hj : ∀ j, ¬ InteriorByte s.width s.height j → s'.rgbData[j]? = s.rgbData[j]?)
    (x y : Int) (hx0 : 0 ≤ x) (hx : x < s.width) (hy0 : 0 ≤ y) (hy : y < s.height)
    (hb : y = 0 ∨ y = s.height - 1 ∨ x = 0 ∨ x = s.width - 1)
    (k : Int) (hk0 : 0 ≤ k) (hk : k < 3) :
    ∃ v, rd s.rgbData (3 * (y * s.width + x) + k) = some v ∧
      rd s'.rgbData (3 * (y * s.width + x) + k) = some v := by
  obtain ⟨i0, i1⟩ := index_bound s.width s.height y x hy0 hy hx0 hx
  have hnn : 0 ≤ 3 * (y * s.width + x) + k := by omega
  have hlt : (3 * (y * s.width + x) + k).toNat < s.rgbData.length := by omega
  obtain ⟨dr, dc, _⟩ := decode s.width x y k.toNat (3 * (y * s.width + x) + k).toNat
    hx0 hx (by omega) (by omega)
  have hsame := hj (3 * (y * s.width + x) + k).toNat (by
    unfold InteriorByte
    rw [dr, dc]
    omega)
  refine ⟨s.rgbData[(3 * (y * s.width + x) + k).toNat], ?_, ?_⟩
  · simp only [rd, hnn, if_true, List.getElem?_eq_getElem hlt]
  · simp only [rd, hnn, if_true, hsame, List.getElem?_eq_getElem hlt]

theorem demosaic_twice (s s1 : BayerToRGB)
    (hlen : (s.bayerData.length : Int) = s.width * s.height)
    (hrgb : (s.rgbData.length : Int) = s.width * s.height * 3)
    (hfr : Frame s s1)
    (hj : ∀ j, InteriorByte s.width s.height j → s1.rgbData[j]? = target s j) :
    demosaic s1 = some s1 := by
  obtain ⟨w1, h1, p1, b1, l1⟩ := hfr
  obtain ⟨s2, hd2, hfr2, hj2⟩ := demosaic_spec s1 (by rw [b1, w1, h1]; exact hlen)
    (by rw [l1, w1, h1]; exact hrgb)
  have hbytes : s2.rgbData = s1.rgbData := by
    apply List.ext_getElem?
    intro j
    by_cases hi : InteriorByte s1.width s1.height j
    · rw [(hj2 j).1 hi, target_congr s s1 ⟨w1, h1, p1, b1, l1⟩]
      rw [w1, h1] at hi
      exact (hj j hi).symm
    · exact (hj2 j).2 hi
  obtain ⟨w2, h2, p2, b2, _⟩ := hfr2
  have : s2 = s1 := by
    cases s1
    cases s2
    simp_all
  rw [hd2, this]

theorem cell_eq_of_sample (s t : BayerToRGB)
    (hs : (s.bayerData.length : Int) = s.width * s.height)
    (ht : (t.bayerData.length : Int) = t.width * t.height)
    (hw : t.width = s.width) (hh : t.height = s.height) (r c : Int)
    (hr0 : 0 ≤ r) (hr : r < s.height) (hc0 : 0 ≤ c) (hc : c < s.width)
    (h : sample s c r = sample t c r) : cell s r c = cell t r c := by
  have a := rd_cell s hs r c hr0 hr hc0 hc
  have b := rd_cell t ht r c hr0 (by omega) hc0 (by omega)
  unfold sample at h
  rw [a, b] at h
  exact Option.some.inj h

theorem saveRGBImage_ok (s : BayerToRGB)
    (hrgb : (s.rgbData.length : Int) = s.width * s.height * 3) :
    saveRGBImage s true = some (some (ppmHeaderBytes s.width s.height ++ s.rgbData), true) := by
  have h0 : 0 ≤ s.width * s.height * 3 := by omega
  have h1 : (s.width * s.height * 3).toNat = s.rgbData.length := by omega
  simp [saveRGBImage, h0, h1]

theorem rgbAt_in_range (s : BayerToRGB)
    (hrgb : (s.rgbData.length : Int) = s.width * s.height * 3) (x y : Int)
    (hx0 : 0 ≤ x) (hx : x < s.width) (hy0 : 0 ≤ y) (hy : y < s.height) :
    ∃ r g b, rgbAt s x y = some (r, g, b) ∧
      s.rgbData[(3 * (y * s.width + x)).toNat]? = some r ∧
      s.rgbData[(3 * (y * s.width + x)).toNat + 1]? = some g ∧
      s.rgbData[(3 * (y * s.width + x)).toNat + 2]? = some b := by
  obtain ⟨i0, i1⟩ := index_bound s.width s.height y x hy0 hy hx0 hx
  have l0 : (3 * (y * s.width + x)).toNat < s.rgbData.length := by omega
  have l1 : (3 * (y * s.width + x)).toNat + 1 < s.rgbData.length := by omega
  have l2 : (3 * (y * s.width + x)).toNat + 2 < s.rgbData.length := by omega
  have b0 := List.getElem?_eq_getElem l0
  have b1 := List.getElem?_eq_getElem l1
  have b2 := List.getElem?_eq_getElem l2
  exact ⟨_, _, _, rgbAt_of_bytes s x y _ _ _ (3 * (y * s.width + x)).toNat (by omega) b0 b1 b2,
    b0, b1, b2⟩

theorem stringToPattern_error (str : String)
    (h : str ≠ "RGGB" ∧ str ≠ "BGGR" ∧ str ≠ "GRBG" ∧ str ≠ "GBRG") :
    stringToPattern str = .error 1 := by
  simp [stringToPattern, h.1, h.2.1, h.2.2.1, h.2.2.2]

theorem mainBody_config_error (a1 a2 a3 a4 a5 : String)
    (readFile : String → Option (List Nat)) (canCreate : String → Bool) (wv hv : Int)
    (hw : atoi a1 = some wv) (hh : atoi a2 = some hv)
    (hbad : wv ≤ 0 ∨ hv ≤ 0 ∨ (a3 ≠ "RGGB" ∧ a3 ≠ "BGGR" ∧ a3 ≠ "GRBG" ∧ a3 ≠ "GBRG")) :
    mainBody a1 a2 a3 a4 a5 readFile canCreate =
      some { status := 1, converter := none, inputRead := false, output := none } := by
  unfold mainBody
  simp only [hw, hh, Option.bind_eq_bind, Option.some_bind, Option.pure_def]
  by_cases hdim : wv ≤ 0 ∨ hv ≤ 0
  · rw [if_pos hdim]
  · rw [if_neg hdim]
    have htok : a3 ≠ "RGGB" ∧ a3 ≠ "BGGR" ∧ a3 ≠ "GRBG" ∧ a3 ≠ "GBRG" := by
      rcases hbad with h | h | h
      · exact absurd (Or.inl h) hdim
      · exact absurd (Or.inr h) hdim
      · exact h
    rw [stringToPattern_error a3 htok]

theorem bggr_is_swapped_rggb (s : BayerToRGB)
    (hlen : (s.bayerData.length : Int) = s.width * s.height) (x y : Int)
    (hint : Interior s x y) :
    demosaicBGGR s x y = (demosaicRGGB s x y).map swapRB := by
  rw [demosaicBGGR_eval s hlen x y hint, demosaicRGGB_eval s hlen x y hint, Option.map_some']
  split_ifs <;> rfl

theorem gbrg_is_swapped_grbg (s : BayerToRGB)
    (hlen : (s.bayerData.length : Int) = s.width * s.height) (x y : Int)
    (hint : Interior s x y) :
    demosaicGBRG s x y = (demosaicGRBG s x y).map swapRB := by
  rw [demosaicGBRG_eval s hlen x y hint, demosaicGRBG_eval s hlen x y hint, Option.map_some']
  split_ifs <;> rfl

theorem map_swapRB_eq_some (o : Option (Nat × Nat × Nat)) (r g b : Nat) :
    o.map swapRB = some (r, g, b) ↔ o = some (b, g, r) := by
  cases o with
  | none => simp
  | some t =>
    obtain ⟨t1, t2, t3⟩ := t
    simp only [Option.map_some', swapRB, Option.some.injEq, Prod.mk.injEq]
    constructor
    · rintro ⟨h1, h2, h3⟩
      exact ⟨h3, h2, h1⟩
    · rintro ⟨h1, h2, h3⟩
      exact ⟨h3, h2, h1⟩

/-- The images of two layouts whose rules are colour-swapped twins, from the same
mosaic and a zero-filled RGB buffer. -/
theorem twin_images (s : BayerToRGB) (hwf : WF s) (hz : ∀ v ∈ s.rgbData, v = 0)
    (p q : BayerPattern)
    (htwin : ∀ x y, Interior s x y →
      demosaicRule { s with pattern := q } x y =
        (demosaicRule { s with pattern := p } x y).map swapRB) :
    ∃ sp sq, demosaic { s with pattern := p } = some sp ∧
      demosaic { s with pattern := q } = some sq ∧
      ∀ x y, 0 ≤ x → x < s.width → 0 ≤ y → y < s.height →
        ∃ r g b, rgbAt sp x y = some (r, g, b) ∧ rgbAt sq x y = some (b, g, r) := by
  obtain ⟨_, _, hlen, hrgb, _⟩ := hwf
  have hrep : s.rgbData = List.replicate s.rgbData.length 0 :=
    List.eq_replicate_iff.2 ⟨rfl, hz⟩
  obtain ⟨sp, hdp, hfp, hjp⟩ := demosaic_spec { s with pattern := p } hlen hrgb
  obtain ⟨sq, hdq, hfq, hjq⟩ := demosaic_spec { s with pattern := q } hlen hrgb
  refine ⟨sp, sq, hdp, hdq, fun x y hx0 hx hy0 hy => ?_⟩
  by_cases hint : Interior s x y
  · obtain ⟨⟨r, g, b⟩, ht⟩ := demosaicRule_some { s with pattern := p } hlen x y hint
    refine ⟨r, g, b, ?_, ?_⟩
    · exact demosaic_rgbAt_interior _ sp hfp (fun j => (hjp j).1) x y hint _ ht
    · refine demosaic_rgbAt_interior _ sq hfq (fun j => (hjq j).1) x y hint _ ?_
      rw [htwin x y hint, ht]
      rfl
  · have hb : y = 0 ∨ y = s.height - 1 ∨ x = 0 ∨ x = s.width - 1 := by
      unfold Interior at hint
      omega
    refine ⟨0, 0, 0, ?_, ?_⟩
    · rw [demosaic_rgbAt_border { s with pattern := p } sp hfp (fun j => (hjp j).2) x y
        hx0 hx hy0 hy hb]
      exact rgbAt_zero { s with pattern := p } s.rgbData.length hrep hrgb x y hx0 hx hy0 hy
    · rw [demosaic_rgbAt_border { s with pattern := q } sq hfq (fun j => (hjq j).2) x y
        hx0 hx hy0 hy hb]
      exact rgbAt_zero { s with pattern := q } s.rgbData.length hrep hrgb x y hx0 hx hy0 hy

theorem cell_mem (s : BayerToRGB) (hlen : (s.bayerData.length : Int) = s.width * s.height)
    (r c : Int) (hr0 : 0 ≤ r) (hr : r < s.height) (hc0 : 0 ≤ c) (hc : c < s.width) :
    cell s r c ∈ s.bayerData := by
  obtain ⟨h0, h1⟩ := index_bound s.width s.height r c hr0 hr hc0 hc
  have hlt : (r * s.width + c).toNat < s.bayerData.length := by omega
  unfold cell
  rw [List.getD_eq_getElem _ _ hlt]
  exact List.getElem_mem hlt

theorem min9_le (a b c d e f g h i : Nat) :
    min9 a b c d e f g h i ≤ a ∧ min9 a b c d e f g h i ≤ b ∧ min9 a b c d e f g h i ≤ c ∧
    min9 a b c d e f g h i ≤ d ∧ min9 a b c d e f g h i ≤ e ∧ min9 a b c d e f g h i ≤ f ∧
    min9 a b c d e f g h i ≤ g ∧ min9 a b c d e f g h i ≤ h ∧ min9 a b c d e f g h i ≤ i := by
  simp [min9]

theorem le_max9 (a b c d e f g h i : Nat) :
    a ≤ max9 a b c d e f g h i ∧ b ≤ max9 a b c d e f g h i ∧ c ≤ max9 a b c d e f g h i ∧
    d ≤ max9 a b c d e f g h i ∧ e ≤ max9 a b c d e f g h i ∧ f ≤ max9 a b c d e f g h i ∧
    g ≤ max9 a b c d e f g h i ∧ h ≤ max9 a b c d e f g h i ∧ i ≤ max9 a b c d e f g h i := by
  simp [max9]

/-- A channel that is the centre sample or a floor average of window samples lies
between any two bounds of the window. -/
theorem chan_range (lo hi c n so w e nw ne sw se t : Nat)
    (hc : lo ≤ c ∧ c ≤ hi) (hn : lo ≤ n ∧ n ≤ hi) (hso : lo ≤ so ∧ so ≤ hi)
    (hw : lo ≤ w ∧ w ≤ hi) (he : lo ≤ e ∧ e ≤ hi) (hnw : lo ≤ nw ∧ nw ≤ hi)
    (hne : lo ≤ ne ∧ ne ≤ hi) (hsw : lo ≤ sw ∧ sw ≤ hi) (hse : lo ≤ se ∧ se ≤ hi)
    (ht : t = c ∨ t = (n + so + w + e) / 4 ∨ t = (nw + ne + sw + se) / 4 ∨
      t = (w + e) / 2 ∨ t = (n + so) / 2) : lo ≤ t ∧ t ≤ hi := by
  rcases ht with rfl | rfl | rfl | rfl | rfl <;> omega

theorem zip_le_getElem? (A B : List Nat) (hle : ∀ q ∈ A.zip B, q.1 ≤ q.2) (i : Nat)
    (va vb : Nat) (ha : A[i]? = some va) (hb : B[i]? = some vb) : va ≤ vb := by
  have hz : (A.zip B)[i]? = some (va, vb) := List.getElem?_zip_eq_some.2 ⟨ha, hb⟩
  exact hle (va, vb) (List.mem_iff_getElem?.2 ⟨i, hz⟩)

theorem zip_le_getD (A B : List Nat) (hlen : A.length = B.length)
    (hle : ∀ q ∈ A.zip B, q.1 ≤ q.2) (i : Nat) : A.getD i 0 ≤ B.getD i 0 := by
  by_cases hi : i < A.length
  · have hi' : i < B.length := by omega
    rw [List.getD_eq_getElem _ _ hi, List.getD_eq_getElem _ _ hi']
    exact zip_le_getElem? A B hle i _ _ (List.getElem?_eq_getElem hi)
      (List.getElem?_eq_getElem hi')
  · have hA : A[i]? = none := List.getElem?_eq_none (by omega)
    simp [List.getD_eq_getElem?_getD, hA]

theorem zip_le_bound (A B : List Nat) (hlen : A.length = B.length)
    (hle : ∀ q ∈ A.zip B, q.1 ≤ q.2) (hB : ∀ v ∈ B, v < 256) : ∀ v ∈ A, v < 256 := by
  intro v hv
  obtain ⟨i, hi⟩ := List.mem_iff_getElem?.1 hv
  have hlt : i < A.length := by
    by_contra hcon
    rw [List.getElem?_eq_none (by omega)] at hi
    cases hi
  have hi' : i < B.length := by omega
  have := zip_le_getElem? A B hle i v _ hi (List.getElem?_eq_getElem hi')
  have := hB _ (List.getElem_mem hi')
  omega

/-- The rules are monotone in the mosaic. -/
theorem demosaicRule_mono (a b : BayerToRGB) (ha : WF a) (hb : WF b)
    (hw : b.width = a.width) (hh : b.height = a.height) (hp : b.pattern = a.pattern)
    (hcell : ∀ r c : Int, cell a r c ≤ cell b r c) (x y : Int) (hint : Interior a x y) :
    ∃ ta tb, demosaicRule a x y = some ta ∧ demosaicRule b x y = some tb ∧
      ∀ k, chan ta k ≤ chan tb k := by
  have hint' : Interior b x y := by
    unfold Interior at hint ⊢
    rw [hw, hh]
    exact hint
  obtain ⟨ao, ad, ah, av⟩ := averages_exact a ha x y hint
  obtain ⟨bo, bd, bh, bv⟩ := averages_exact b hb x y hint'
  have c00 := hcell y x
  have c0m := hcell y (x - 1)
  have c0p := hcell y (x + 1)
  have cm0 := hcell (y - 1) x
  have cmm := hcell (y - 1) (x - 1)
  have cmp := hcell (y - 1) (x + 1)
  have cp0 := hcell (y + 1) x
  have cpm := hcell (y + 1) (x - 1)
  have cpp := hcell (y + 1) (x + 1)
  have ho : orth4 a x y ≤ orth4 b x y := by rw [ao, bo]; omega
  have hd : diag4 a x y ≤ diag4 b x y := by rw [ad, bd]; omega
  have hz : horiz2 a x y ≤ horiz2 b x y := by rw [ah, bh]; omega
  have hv : vert2 a x y ≤ vert2 b x y := by rw [av, bv]; omega
  refine ⟨_, _, demosaicRule_eval a ha.2.2.1 x y hint, demosaicRule_eval b hb.2.2.1 x y hint',
    fun k => ?_⟩
  rw [hp]
  cases cellColor a.pattern y x <;> simp only
  · unfold chan
    split_ifs <;> assumption
  · split_ifs <;> unfold chan <;> split_ifs <;> assumption
  · unfold chan
    split_ifs <;> assumption

/-- Monotonicity of the scan for two converters that differ in the mosaic only. -/
theorem demosaic_mono_states (a b : BayerToRGB) (ha : WF a) (hb : WF b)
    (hw : b.width = a.width) (hh : b.height = a.height) (hp : b.pattern = a.pattern)
    (hrgb : b.rgbData = a.rgbData)
    (hle : ∀ q ∈ a.bayerData.zip b.bayerData, q.1 ≤ q.2) :
    ∃ a' b' : BayerToRGB, demosaic a = some a' ∧ demosaic b = some b' ∧
      a'.rgbData.length = a.rgbData.length ∧ b'.rgbData.length = a.rgbData.length ∧
      ∀ j va vb : Nat, a'.rgbData[j]? = some va → b'.rgbData[j]? = some vb → va ≤ vb := by
  obtain ⟨a', hda, hfa, hja⟩ := demosaic_spec a ha.2.2.1 ha.2.2.2.1
  obtain ⟨b', hdb, hfb, hjb⟩ := demosaic_spec b hb.2.2.1 hb.2.2.2.1
  have hAB : a.bayerData.length = b.bayerData.length := by
    have h1 := ha.2.2.1
    have h2 := hb.2.2.1
    rw [hw, hh] at h2
    omega
  refine ⟨a', b', hda, hdb, hfa.2.2.2.2, by rw [hfb.2.2.2.2, hrgb],
    fun j va vb hva hvb => ?_⟩
  by_cases hi : InteriorByte a.width a.height j
  · rw [(hja j).1 hi] at hva
    rw [(hjb j).1 (by rw [hw, hh]; exact hi)] at hvb
    obtain ⟨r1, r2, c1, c2⟩ := hi
    obtain ⟨ta, tb, hta, htb, hk⟩ := demosaicRule_mono a b ha hb hw hh hp
      (fun r c => by
        unfold cell
        rw [hw]
        exact zip_le_getD a.bayerData b.bayerData hAB hle _)
      (colOf a.width j) (rowOf a.width j) ⟨c1, c2, r1, r2⟩
    simp only [target, hw, hta, htb, Option.map_some', Option.some.injEq] at hva hvb
    rw [← hva, ← hvb]
    exact hk (j % 3)
  · rw [(hja j).2 hi] at hva
    rw [(hjb j).2 (by rw [hw, hh]; exact hi), hrgb, hva] at hvb
    exact Nat.le_of_eq (Option.some.inj hvb)

/-! ## The claims -/

/-- C1: for every layout and every converter satisfying the data-model invariant
(positive width and height, a mosaic of `width * height` samples), `demosaic`
returns, and in its result the RGB triple stored at indices
`3 * (y * width + x)`, `+ 1`, `+ 2` is, for every interior coordinate
`1 <= x <= width - 2`, `1 <= y <= height - 2`, exactly the triple that the
layout's per-pixel rule computes at `(x, y)` from the mosaic: no later step of
the scan overwrites an earlier interior result. -/
theorem demosaic_stores_rule_result (s : BayerToRGB) (hwf : WF s) :
    ∃ s', demosaic s = some s' ∧
      ∀ x y, Interior s x y →
        ∃ t, demosaicRule s x y = some t ∧ rgbAt s' x y = some t ∧
          (s.pattern = .RGGB → demosaicRGGB s x y = some t) ∧
          (s.pattern = .BGGR → demosaicBGGR s x y = some t) ∧
          (s.pattern = .GRBG → demosaicGRBG s x y = some t) ∧
          (s.pattern = .GBRG → demosaicGBRG s x y = some t) := by
  obtain ⟨_, _, hlen, hrgb, _⟩ := hwf
  obtain ⟨s', hd, hfr, hj⟩ := demosaic_spec s hlen hrgb
  refine ⟨s', hd, fun x y hint => ?_⟩
  obtain ⟨t, ht⟩ := demosaicRule_some s hlen x y hint
  refine ⟨t, ht, demosaic_rgbAt_interior s s' hfr (fun j => (hj j).1) x y hint t ht,
    ?_, ?_, ?_, ?_⟩ <;>
  · intro hp
    simpa only [demosaicRule, hp] using ht

/-- Witness of C1 on the 5x5 mosaic with layout GRBG, at pixel `(2, 3)`. -/
theorem demosaic_stores_rule_result_witness :
    WF (conv5 .GRBG) ∧ ∃ s', demosaic (conv5 .GRBG) = some s' ∧
      rgbAt s' 2 3 = demosaicGRBG (conv5 .GRBG) 2 3 := by
  refine ⟨by decide, ?_⟩
  obtain ⟨s', hd, h⟩ := demosaic_stores_rule_result (conv5 .GRBG) (by decide)
  obtain ⟨t, _, hrgb, _, _, hg, _⟩ := h 2 3 (by decide)
  exact ⟨s', hd, by rw [hrgb, hg rfl]⟩

/-- C2: for all four layouts and every interior coordinate `(x, y)` the
reconstructed native channel is the raw sample at `(x, y)`: red on the R-cells,
green on the G-cells and blue on the B-cells of the layout's 2x2 tile repeated
from `(0, 0)`. -/
theorem native_channel_is_raw_sample (s : BayerToRGB) (hwf : WF s) (x y : Int)
    (hint : Interior s x y) :
    ∃ r g b v, demosaicRule s x y = some (r, g, b) ∧ sample s x y = some v ∧
      (cellColor s.pattern y x = .R → r = v) ∧
      (cellColor s.pattern y x = .G → g = v) ∧
      (cellColor s.pattern y x = .B → b = v) := by
  obtain ⟨_, _, hlen, _, _⟩ := hwf
  have he := demosaicRule_eval s hlen x y hint
  have hs : sample s x y = some (cell s y x) := (window s hlen x y hint).1
  cases hc : cellColor s.pattern y x <;> rw [hc] at he <;> simp only at he
  · exact ⟨_, _, _, _, he, hs, fun _ => rfl, by simp, by simp⟩
  · split_ifs at he
    · exact ⟨_, _, _, _, he, hs, by simp, fun _ => rfl, by simp⟩
    · exact ⟨_, _, _, _, he, hs, by simp, fun _ => rfl, by simp⟩
  · exact ⟨_, _, _, _, he, hs, by simp, by simp, fun _ => rfl⟩

/-- Witness of C2 on the 5x5 mosaic with layout BGGR, at pixel `(1, 1)`. -/
theorem native_channel_is_raw_sample_witness :
    WF (conv5 .BGGR) ∧ Interior (conv5 .BGGR) 1 1 ∧
    ∃ r g b v, demosaicRule (conv5 .BGGR) 1 1 = some (r, g, b) ∧
      sample (conv5 .BGGR) 1 1 = some v ∧
      (cellColor (conv5 .BGGR).pattern 1 1 = .R → r = v) ∧
      (cellColor (conv5 .BGGR).pattern 1 1 = .G → g = v) ∧
      (cellColor (conv5 .BGGR).pattern 1 1 = .B → b = v) :=
  ⟨by decide, by decide, native_channel_is_raw_sample (conv5 .BGGR) (by decide) 1 1 (by decide)⟩

/-- C3: for all four layouts and every interior R-native or B-native cell
`(x, y)`, green is the floor of the sum of the four orthogonal neighbours
`(y-1,x), (y+1,x), (y,x-1), (y,x+1)` divided by 4 and the missing opposite
colour (blue on an R-cell, red on a B-cell) is the floor of the sum of the four
diagonal neighbours `(y-1,x-1), (y-1,x+1), (y+1,x-1), (y+1,x+1)` divided by 4;
each of those diagonal neighbours is a cell of the opposite colour and each of
those orthogonal neighbours is a G-cell of the layout's tile. -/
theorem chroma_cell_interpolation (s : BayerToRGB) (hwf : WF s) (x y : Int)
    (hint : Interior s x y) (hc : cellColor s.pattern y x ≠ .G) :
    ∃ r g b n so w e nw ne sw se : Nat,
      demosaicRule s x y = some (r, g, b) ∧
      sample s x (y - 1) = some n ∧ sample s x (y + 1) = some so ∧
      sample s (x - 1) y = some w ∧ sample s (x + 1) y = some e ∧
      sample s (x - 1) (y - 1) = some nw ∧ sample s (x + 1) (y - 1) = some ne ∧
      sample s (x - 1) (y + 1) = some sw ∧ sample s (x + 1) (y + 1) = some se ∧
      g = (n + so + w + e) / 4 ∧
      (cellColor s.pattern y x = .R → b = (nw + ne + sw + se) / 4) ∧
      (cellColor s.pattern y x = .B → r = (nw + ne + sw + se) / 4) ∧
      cellColor s.pattern (y - 1) (x - 1) = opposite (cellColor s.pattern y x) ∧
      cellColor s.pattern (y - 1) (x + 1) = opposite (cellColor s.pattern y x) ∧
      cellColor s.pattern (y + 1) (x - 1) = opposite (cellColor s.pattern y x) ∧
      cellColor s.pattern (y + 1) (x + 1) = opposite (cellColor s.pattern y x) ∧
      cellColor s.pattern (y - 1) x = .G ∧ cellColor s.pattern (y + 1) x = .G ∧
      cellColor s.pattern y (x - 1) = .G ∧ cellColor s.pattern y (x + 1) = .G := by
  have hlen := hwf.2.2.1
  have he := demosaicRule_eval s hlen x y hint
  obtain ⟨_, c0m, c0p, cm0, cmm, cmp, cp0, cpm, cpp⟩ := window s hlen x y hint
  obtain ⟨ho, hd, _, _⟩ := averages_exact s hwf x y hint
  obtain ⟨n1, n2, n3, n4, n5, n6, n7, n8⟩ := chroma_neighbours s.pattern x y hc
  cases hcol : cellColor s.pattern y x with
  | R =>
    rw [hcol] at he n1 n2 n3 n4
    exact ⟨cell s y x, orth4 s x y, diag4 s x y, _, _, _, _, _, _, _, _, he,
      cm0, cp0, c0m, c0p, cmm, cmp, cpm, cpp, ho, fun _ => hd, (fun h => by cases h),
      n1, n2, n3, n4, n5, n6, n7, n8⟩
  | G => exact absurd hcol hc
  | B =>
    rw [hcol] at he n1 n2 n3 n4
    exact ⟨diag4 s x y, orth4 s x y, cell s y x, _, _, _, _, _, _, _, _, he,
      cm0, cp0, c0m, c0p, cmm, cmp, cpm, cpp, ho, (fun h => by cases h), fun _ => hd,
      n1, n2, n3, n4, n5, n6, n7, n8⟩

/-- Witness of C3 on the 5x5 mosaic with layout RGGB, at the red cell `(2, 2)`. -/
theorem chroma_cell_interpolation_witness :
    cellColor (conv5 .RGGB).pattern 2 2 = .R ∧
    ∃ r g b : Nat, demosaicRule (conv5 .RGGB) 2 2 = some (r, g, b) ∧
      g = (30 + 30 + 20 + 20) / 4 ∧ b = (40 + 40 + 40 + 40) / 4 := by
  refine ⟨by decide, ?_⟩
  obtain ⟨r, g, b, n, so, w, e, nw, ne, sw, se, hr, h1, h2, h3, h4, h5, h6, h7, h8, hg, hb, _⟩ :=
    chroma_cell_interpolation (conv5 .RGGB) (by decide) 2 2 (by decide) (by decide)
  have e1 : sample (conv5 .RGGB) 2 (2 - 1) = some 30 := by decide
  have e2 : sample (conv5 .RGGB) 2 (2 + 1) = some 30 := by decide
  have e3 : sample (conv5 .RGGB) (2 - 1) 2 = some 20 := by decide
  have e4 : sample (conv5 .RGGB) (2 + 1) 2 = some 20 := by decide
  have e5 : sample (conv5 .RGGB) (2 - 1) (2 - 1) = some 40 := by decide
  have e6 : sample (conv5 .RGGB) (2 + 1) (2 - 1) = some 40 := by decide
  have e7 : sample (conv5 .RGGB) (2 - 1) (2 + 1) = some 40 := by decide
  have e8 : sample (conv5 .RGGB) (2 + 1) (2 + 1) = some 40 := by decide
  rw [e1] at h1; rw [e2] at h2; rw [e3] at h3; rw [e4] at h4
  rw [e5] at h5; rw [e6] at h6; rw [e7] at h7; rw [e8] at h8
  cases h1; cases h2; cases h3; cases h4; cases h5; cases h6; cases h7; cases h8
  exact ⟨r, g, b, hr, hg, hb (by decide)⟩

/-- C4: for all four layouts and every interior G-cell `(x, y)`, green is the raw
sample at `(x, y)` and red (respectively blue) is the floor average of exactly
the two orthogonal neighbours that are R-cells (respectively B-cells) of the
layout's tile: the left/right pair `(y,x-1), (y,x+1)` when the row of the G-cell
contains that colour, the up/down pair `(y-1,x), (y+1,x)` otherwise.  For RGGB a
G-cell in an even row takes red from left/right and blue from up/down, and a
G-cell in an odd row the reverse. -/
theorem green_cell_interpolation (s : BayerToRGB) (hwf : WF s) (x y : Int)
    (hint : Interior s x y) (hg : cellColor s.pattern y x = .G) :
    ∃ r g b c n so w e : Nat,
      demosaicRule s x y = some (r, g, b) ∧ sample s x y = some c ∧
      sample s x (y - 1) = some n ∧ sample s x (y + 1) = some so ∧
      sample s (x - 1) y = some w ∧ sample s (x + 1) y = some e ∧
      g = c ∧
      ((cellColor s.pattern y (x - 1) = .R ∧ cellColor s.pattern y (x + 1) = .R ∧
          cellColor s.pattern (y - 1) x = .B ∧ cellColor s.pattern (y + 1) x = .B ∧
          r = (w + e) / 2 ∧ b = (n + so) / 2) ∨
       (cellColor s.pattern y (x - 1) = .B ∧ cellColor s.pattern y (x + 1) = .B ∧
          cellColor s.pattern (y - 1) x = .R ∧ cellColor s.pattern (y + 1) x = .R ∧
          b = (w + e) / 2 ∧ r = (n + so) / 2)) ∧
      (s.pattern = .RGGB →
        (y % 2 = 0 → r = (w + e) / 2 ∧ b = (n + so) / 2) ∧
        (y % 2 = 1 → b = (w + e) / 2 ∧ r = (n + so) / 2)) := by
  have hlen := hwf.2.2.1
  have he := demosaicRule_eval s hlen x y hint
  obtain ⟨c00, c0m, c0p, cm0, _, _, cp0, _, _⟩ := window s hlen x y hint
  obtain ⟨_, _, hh, hv⟩ := averages_exact s hwf x y hint
  obtain ⟨g1, g2, g3, g4⟩ := green_neighbours s.pattern x y hg
  rw [hg] at he
  simp only at he
  cases hl : cellColor s.pattern y (x - 1) with
  | R =>
    rw [hl] at he g2 g3 g4
    simp only [if_true] at he
    refine ⟨horiz2 s x y, cell s y x, vert2 s x y, _, _, _, _, _, he, c00, cm0, cp0, c0m, c0p,
      rfl, Or.inl ⟨rfl, g2, g3, g4, hh, hv⟩, fun hp => ⟨fun _ => ⟨hh, hv⟩, fun hy => ?_⟩⟩
    rw [hp] at hl
    have := (rggb_row (x - 1) y).1 hl
    omega
  | G => exact absurd hl g1
  | B =>
    rw [hl] at he g2 g3 g4
    have hne : ¬ (Color.B = Color.R) := by decide
    simp only [hne, if_false] at he
    refine ⟨vert2 s x y, cell s y x, horiz2 s x y, _, _, _, _, _, he, c00, cm0, cp0, c0m, c0p,
      rfl, Or.inr ⟨rfl, g2, g3, g4, hh, hv⟩, fun hp => ⟨fun hy => ?_, fun _ => ⟨hh, hv⟩⟩⟩
    rw [hp] at hl
    have := (rggb_row (x - 1) y).2 hl
    omega

/-- Witness of C4 on the 5x5 mosaic with layout RGGB, at the green cell `(1, 2)`
of an even row. -/
theorem green_cell_interpolation_witness :
    cellColor (conv5 .RGGB).pattern 2 1 = .G ∧
    ∃ r g b : Nat, demosaicRule (conv5 .RGGB) 1 2 = some (r, g, b) ∧
      g = 20 ∧ r = (10 + 10) / 2 ∧ b = (40 + 40) / 2 := by
  refine ⟨by decide, ?_⟩
  obtain ⟨r, g, b, c, n, so, w, e, hr, h0, h1, h2, h3, h4, hg, _, hrggb⟩ :=
    green_cell_interpolation (conv5 .RGGB) (by decide) 1 2 (by decide) (by decide)
  have e0 : sample (conv5 .RGGB) 1 2 = some 20 := by decide
  have e1 : sample (conv5 .RGGB) 1 (2 - 1) = some 40 := by decide
  have e2 : sample (conv5 .RGGB) 1 (2 + 1) = some 40 := by decide
  have e3 : sample (conv5 .RGGB) (1 - 1) 2 = some 10 := by decide
  have e4 : sample (conv5 .RGGB) (1 + 1) 2 = some 10 := by decide
  rw [e0] at h0; rw [e1] at h1; rw [e2] at h2; rw [e3] at h3; rw [e4] at h4
  cases h0; cases h1; cases h2; cases h3; cases h4
  obtain ⟨hrv, hbv⟩ := (hrggb rfl).1 (by decide)
  exact ⟨r, g, b, hr, hg, hrv, hbv⟩

/-- C5: for all four layouts, every width and height greater than 0 and every
mosaic content, the RGB buffer of a freshly constructed converter (a
zero-initialised buffer of `width * height * 3` bytes) has, after `demosaic`,
all three channels equal to 0 at every border pixel: every `(x, y)` with
`y = 0`, `y = height - 1`, `x = 0` or `x = width - 1`. -/
theorem border_pixels_zero (w h : Int) (p : BayerPattern) (s0 : BayerToRGB)
    (mosaic : List Nat)
    (hnew : BayerToRGB.new w h p = some s0)
    (hm : (mosaic.length : Int) = w * h) :
    ∃ s', demosaic { s0 with bayerData := mosaic } = some s' ∧
      ∀ x y, 0 ≤ x → x < w → 0 ≤ y → y < h →
        (y = 0 ∨ y = h - 1 ∨ x = 0 ∨ x = w - 1) → rgbAt s' x y = some (0, 0, 0) := by
  obtain ⟨h0, _, rfl⟩ := new_eq w h p s0 hnew
  have h3 : 0 ≤ w * h * 3 := by omega
  obtain ⟨s', hd, hfr, hj⟩ := demosaic_spec
    { width := w, height := h, pattern := p, bayerData := mosaic,
      rgbData := List.replicate (w * h * 3).toNat 0 } hm
    (by simp only [List.length_replicate]; omega)
  refine ⟨s', hd, fun x y hx0 hx hy0 hy hb => ?_⟩
  rw [demosaic_rgbAt_border _ s' hfr (fun j => (hj j).2) x y hx0 hx hy0 hy hb]
  exact rgbAt_zero _ (w * h * 3).toNat rfl (by simp only; omega) x y hx0 hx hy0 hy

/-- Witness of C5 on a fresh 4x3 GBRG converter, at the corner pixel `(3, 2)`. -/
theorem border_pixels_zero_witness :
    ∃ s0, BayerToRGB.new 4 3 .GBRG = some s0 ∧
      ∃ s', demosaic { s0 with bayerData := [1, 2, 3, 4, 5, 6, 7, 8, 9, 10, 11, 12] } = some s' ∧
        rgbAt s' 3 2 = some (0, 0, 0) := by
  refine ⟨_, rfl, ?_⟩
  obtain ⟨s', hd, hb⟩ := border_pixels_zero 4 3 .GBRG _ [1, 2, 3, 4, 5, 6, 7, 8, 9, 10, 11, 12]
    rfl (by decide)
  exact ⟨s', hd, hb 3 2 (by decide) (by decide) (by decide) (by decide) (by decide)⟩

/-- C6: averaging is floor-integer with no rounding correction and no 8-bit
wrap-around: at every interior pixel of a mosaic of 8-bit samples every
interpolated channel the rules store is exactly the floor of the sum of its two
neighbours divided by 2, or the floor of the sum of its four neighbours divided
by 4, the sums taken over the unbounded integers (not reduced modulo 256); for
the inputs 10 and 11 the 2-neighbour average is 10, and for 255 and 255 it is
255. -/
theorem averaging_is_floor (s : BayerToRGB) (hwf : WF s) (x y : Int)
    (hint : Interior s x y) :
    (∃ r g b c n so w e nw ne sw se : Nat,
      demosaicRule s x y = some (r, g, b) ∧ sample s x y = some c ∧
      sample s x (y - 1) = some n ∧ sample s x (y + 1) = some so ∧
      sample s (x - 1) y = some w ∧ sample s (x + 1) y = some e ∧
      sample s (x - 1) (y - 1) = some nw ∧ sample s (x + 1) (y - 1) = some ne ∧
      sample s (x - 1) (y + 1) = some sw ∧ sample s (x + 1) (y + 1) = some se ∧
      (cellColor s.pattern y x = .R →
        r = c ∧ g = (n + so + w + e) / 4 ∧ b = (nw + ne + sw + se) / 4) ∧
      (cellColor s.pattern y x = .B →
        b = c ∧ g = (n + so + w + e) / 4 ∧ r = (nw + ne + sw + se) / 4) ∧
      (cellColor s.pattern y x = .G →
        g = c ∧ ((r = (w + e) / 2 ∧ b = (n + so) / 2) ∨
                 (r = (n + so) / 2 ∧ b = (w + e) / 2)))) ∧
    demosaicGRBG (conv3 .GRBG 10 11) 1 1 = some (0, 0, 10) ∧
    demosaicGRBG (conv3 .GRBG 255 255) 1 1 = some (0, 0, 255) ∧
    demosaicRGGB (conv3 .RGGB 10 11) 1 1 = some (0, 5, 0) := by
  have hlen := hwf.2.2.1
  have he := demosaicRule_eval s hlen x y hint
  obtain ⟨c00, c0m, c0p, cm0, cmm, cmp, cp0, cpm, cpp⟩ := window s hlen x y hint
  obtain ⟨ho, hd, hh, hv⟩ := averages_exact s hwf x y hint
  refine ⟨?_, by decide, by decide, by decide⟩
  cases hcol : cellColor s.pattern y x with
  | R =>
    rw [hcol] at he
    exact ⟨cell s y x, orth4 s x y, diag4 s x y, _, _, _, _, _, _, _, _, _, he, c00,
      cm0, cp0, c0m, c0p, cmm, cmp, cpm, cpp, fun _ => ⟨rfl, ho, hd⟩,
      (fun h => by cases h), (fun h => by cases h)⟩
  | B =>
    rw [hcol] at he
    exact ⟨diag4 s x y, orth4 s x y, cell s y x, _, _, _, _, _, _, _, _, _, he, c00,
      cm0, cp0, c0m, c0p, cmm, cmp, cpm, cpp, (fun h => by cases h),
      fun _ => ⟨rfl, ho, hd⟩, (fun h => by cases h)⟩
  | G =>
    rw [hcol] at he
    simp only at he
    split_ifs at he
    · exact ⟨horiz2 s x y, cell s y x, vert2 s x y, _, _, _, _, _, _, _, _, _, he, c00,
        cm0, cp0, c0m, c0p, cmm, cmp, cpm, cpp, (fun h => by cases h),
        (fun h => by cases h), fun _ => ⟨rfl, Or.inl ⟨hh, hv⟩⟩⟩
    · exact ⟨vert2 s x y, cell s y x, horiz2 s x y, _, _, _, _, _, _, _, _, _, he, c00,
        cm0, cp0, c0m, c0p, cmm, cmp, cpm, cpp, (fun h => by cases h),
        (fun h => by cases h), fun _ => ⟨rfl, Or.inr ⟨hv, hh⟩⟩⟩

/-- Witness of C6 on the 5x5 mosaic with layout GBRG, at pixel `(3, 1)`. -/
theorem averaging_is_floor_witness :
    WF (conv5 .GBRG) ∧ Interior (conv5 .GBRG) 3 1 ∧
    demosaicGRBG (conv3 .GRBG 10 11) 1 1 = some (0, 0, 10) :=
  ⟨by decide, by decide,
    (averaging_is_floor (conv5 .GBRG) (by decide) 3 1 (by decide)).2.1⟩

/-- C7: end-to-end scenario 1.  For the 3x3 mosaic whose nine samples are all 100
and layout RGGB, `demosaic` on a freshly constructed converter yields output
pixel `(1, 1) = (100, 100, 100)` and all 8 border pixels `(0, 0, 0)`. -/
theorem scenario_uniform_3x3 :
    ∃ s0 s1 s', BayerToRGB.new 3 3 .RGGB = some s0 ∧
      readBayerImage s0 (some (List.replicate 9 100)) = (s1, true) ∧
      demosaic s1 = some s' ∧
      rgbAt s' 1 1 = some (100, 100, 100) ∧
      rgbAt s' 0 0 = some (0, 0, 0) ∧ rgbAt s' 1 0 = some (0, 0, 0) ∧
      rgbAt s' 2 0 = some (0, 0, 0) ∧ rgbAt s' 0 1 = some (0, 0, 0) ∧
      rgbAt s' 2 1 = some (0, 0, 0) ∧ rgbAt s' 0 2 = some (0, 0, 0) ∧
      rgbAt s' 1 2 = some (0, 0, 0) ∧ rgbAt s' 2 2 = some (0, 0, 0) :=
  ⟨{ width := 3, height := 3, pattern := .RGGB, bayerData := List.replicate 9 0,
     rgbData := List.replicate 27 0 },
   { width := 3, height := 3, pattern := .RGGB, bayerData := List.replicate 9 100,
     rgbData := List.replicate 27 0 },
   { width := 3, height := 3, pattern := .RGGB, bayerData := List.replicate 9 100,
     rgbData := List.replicate 12 0 ++ [100, 100, 100] ++ List.replicate 12 0 },
   by decide, by decide, by decide, by decide, by decide, by decide, by decide, by decide,
   by decide, by decide, by decide, by decide⟩

/-- C8, as stated, fails: in the 5x5 scenario with layout RGGB the cell `(1, 1)`
is not an R-cell, and the red channel of output pixel `(1, 1)` is not 40. -/
theorem scenario_5x5_pixel11_not_red_native :
    cellColor .RGGB 1 1 ≠ .R ∧
    ¬ ∃ s' g b, demosaic (conv5 .RGGB) = some s' ∧ rgbAt s' 1 1 = some (40, g, b) := by
  refine ⟨by decide, ?_⟩
  rintro ⟨s', g, b, hd, hrgb⟩
  have hd' : demosaic (conv5 .RGGB) = some
      { width := 5, height := 5, pattern := .RGGB, bayerData := mosaic5,
        rgbData := List.replicate 18 0 ++ [10, 25, 40, 10, 30, 40, 10, 25, 40] ++
          List.replicate 6 0 ++ [10, 20, 40, 10, 25, 40, 10, 20, 40] ++
          List.replicate 6 0 ++ [10, 25, 40, 10, 30, 40, 10, 25, 40] ++
          List.replicate 18 0 } := by decide
  rw [hd'] at hd
  cases hd
  have hval : rgbAt
      { width := 5, height := 5, pattern := .RGGB, bayerData := mosaic5,
        rgbData := List.replicate 18 0 ++ [10, 25, 40, 10, 30, 40, 10, 25, 40] ++
          List.replicate 6 0 ++ [10, 20, 40, 10, 25, 40, 10, 20, 40] ++
          List.replicate 6 0 ++ [10, 25, 40, 10, 30, 40, 10, 25, 40] ++
          List.replicate 18 0 } 1 1 = some (10, 25, 40) := by decide
  rw [hval] at hrgb
  cases hrgb

/-- C8, amended: end-to-end scenario 2.  For the 5x5 mosaic with rows 0, 2, 4 =
`[10,20,10,20,10]` and rows 1, 3 = `[30,40,30,40,30]` and layout RGGB, the
interior pixel `(1, 1)` is a B-native cell of value 40: the blue channel of
output pixel `(1, 1)` is the raw sample 40 taken directly, and the pixel is
`(10, 25, 40)`. -/
theorem scenario_5x5_pixel11 :
    ∃ s0 s', BayerToRGB.new 5 5 .RGGB = some s0 ∧
      readBayerImage s0 (some mosaic5) = (conv5 .RGGB, true) ∧
      demosaic (conv5 .RGGB) = some s' ∧
      cellColor .RGGB 1 1 = .B ∧ sample (conv5 .RGGB) 1 1 = some 40 ∧
      demosaicRGGB (conv5 .RGGB) 1 1 = some (10, 25, 40) ∧
      rgbAt s' 1 1 = some (10, 25, 40) :=
  ⟨{ width := 5, height := 5, pattern := .RGGB, bayerData := List.replicate 25 0,
     rgbData := List.replicate 75 0 },
   { width := 5, height := 5, pattern := .RGGB, bayerData := mosaic5,
     rgbData := List.replicate 18 0 ++ [10, 25, 40, 10, 30, 40, 10, 25, 40] ++
       List.replicate 6 0 ++ [10, 20, 40, 10, 25, 40, 10, 20, 40] ++
       List.replicate 6 0 ++ [10, 25, 40, 10, 30, 40, 10, 25, 40] ++
       List.replicate 18 0 },
   by decide, by decide, by decide, by decide, by decide, by decide, by decide⟩

/-- C9: degenerate case.  For every layout and every mosaic, when `width < 3` or
`height < 3` the call `demosaic` returns normally and leaves the RGB buffer (and
the rest of the converter) exactly as it was, so a freshly constructed converter
ends with an all-zero RGB buffer of `width * height * 3` bytes. -/
theorem degenerate_is_noop (w h : Int) (p : BayerPattern) (mosaic rgb : List Nat)
    (hdeg : w < 3 ∨ h < 3) :
    demosaic { width := w, height := h, pattern := p, bayerData := mosaic, rgbData := rgb } =
      some { width := w, height := h, pattern := p, bayerData := mosaic, rgbData := rgb } ∧
    ∀ s0, BayerToRGB.new w h p = some s0 →
      ∃ s', demosaic { s0 with bayerData := mosaic } = some s' ∧
        s'.rgbData = List.replicate (w * h * 3).toNat 0 ∧
        (s'.rgbData.length : Int) = w * h * 3 := by
  refine ⟨demosaic_degenerate _ hdeg, fun s0 hnew => ?_⟩
  obtain ⟨h0, _, rfl⟩ := new_eq w h p s0 hnew
  refine ⟨_, demosaic_degenerate _ hdeg, rfl, ?_⟩
  simp only [List.length_replicate]
  omega

/-- Witness of C9 on a fresh 2x4 converter. -/
theorem degenerate_is_noop_witness :
    ∃ s0, BayerToRGB.new 2 4 .BGGR = some s0 ∧
      ∃ s', demosaic { s0 with bayerData := [1, 2, 3, 4, 5, 6, 7, 8] } = some s' ∧
        s'.rgbData = List.replicate 24 0 := by
  refine ⟨_, rfl, ?_⟩
  obtain ⟨s', hd, hz, _⟩ :=
    (degenerate_is_noop 2 4 .BGGR [1, 2, 3, 4, 5, 6, 7, 8] [] (by decide)).2 _ rfl
  exact ⟨s', hd, hz⟩

/-- C10: `stringToPattern` maps exactly the four case-sensitive tokens `RGGB`,
`BGGR`, `GRBG`, `GBRG` to the layouts of the same name, and for every other
string (such as `XYZZ`, `rggb` or the empty string) it exits with status 1
instead of returning a layout. -/
theorem stringToPattern_spec (str : String) (p : BayerPattern) :
    (stringToPattern str = .ok p ↔
      (str = "RGGB" ∧ p = .RGGB) ∨ (str = "BGGR" ∧ p = .BGGR) ∨
      (str = "GRBG" ∧ p = .GRBG) ∨ (str = "GBRG" ∧ p = .GBRG)) ∧
    (stringToPattern str = .error 1 ↔
      str ≠ "RGGB" ∧ str ≠ "BGGR" ∧ str ≠ "GRBG" ∧ str ≠ "GBRG") ∧
    stringToPattern "RGGB" = .ok .RGGB ∧ stringToPattern "BGGR" = .ok .BGGR ∧
    stringToPattern "GRBG" = .ok .GRBG ∧ stringToPattern "GBRG" = .ok .GBRG ∧
    stringToPattern "XYZZ" = .error 1 ∧ stringToPattern "rggb" = .error 1 ∧
    stringToPattern "" = .error 1 := by
  refine ⟨?_, ?_, by simp [stringToPattern], by simp [stringToPattern],
    by simp [stringToPattern], by simp [stringToPattern], by simp [stringToPattern],
    by simp [stringToPattern], by simp [stringToPattern]⟩
  · unfold stringToPattern
    split_ifs with h1 h2 h3 h4 <;> simp_all
    all_goals exact eq_comm
  · unfold stringToPattern
    split_ifs with h1 h2 h3 h4 <;> simp_all

/-- C11: `demosaic` mutates only interior cells of the RGB buffer: for any initial
RGB buffer contents of length `width * height * 3` (not only all-zero) and any
layout, after `demosaic` every byte belonging to a border pixel (`y = 0`,
`y = height - 1`, `x = 0` or `x = width - 1`) has its initial value, the RGB
buffer length is unchanged, and the mosaic samples, width, height and layout
are unchanged. -/
theorem demosaic_mutates_only_interior (s : BayerToRGB) (hwf : WF s) :
    ∃ s', demosaic s = some s' ∧
      s'.width = s.width ∧ s'.height = s.height ∧ s'.pattern = s.pattern ∧
      s'.bayerData = s.bayerData ∧ s'.rgbData.length = s.rgbData.length ∧
      ∀ x y, 0 ≤ x → x < s.width → 0 ≤ y → y < s.height →
        (y = 0 ∨ y = s.height - 1 ∨ x = 0 ∨ x = s.width - 1) →
        ∀ k : Int, 0 ≤ k → k < 3 →
          ∃ v, rd s.rgbData (3 * (y * s.width + x) + k) = some v ∧
            rd s'.rgbData (3 * (y * s.width + x) + k) = some v := by
  obtain ⟨_, _, hlen, hrgb, _⟩ := hwf
  obtain ⟨s', hd, hfr, hj⟩ := demosaic_spec s hlen hrgb
  exact ⟨s', hd, hfr.1, hfr.2.1, hfr.2.2.1, hfr.2.2.2.1, hfr.2.2.2.2,
    fun x y hx0 hx hy0 hy hb k hk0 hk =>
      rd_border_byte s s' hrgb (fun j => (hj j).2) x y hx0 hx hy0 hy hb k hk0 hk⟩

/-- Witness of C11 on the 5x5 GRBG converter with an RGB buffer filled with 7, at
the green byte of the border pixel `(4, 2)`. -/
theorem demosaic_mutates_only_interior_witness :
    WF { conv5 .GRBG with rgbData := List.replicate 75 7 } ∧
    ∃ s', demosaic { conv5 .GRBG with rgbData := List.replicate 75 7 } = some s' ∧
      s'.bayerData = mosaic5 ∧ s'.rgbData.length = 75 ∧
      rd s'.rgbData (3 * (2 * 5 + 4) + 1) = some 7 := by
  refine ⟨by decide, ?_⟩
  obtain ⟨s', hd, _, _, _, hb, hl, hborder⟩ :=
    demosaic_mutates_only_interior { conv5 .GRBG with rgbData := List.replicate 75 7 }
      (by decide)
  obtain ⟨v, hv, hv'⟩ := hborder 4 2 (by decide) (by decide) (by decide) (by decide)
    (by decide) 1 (by decide) (by decide)
  have h7 : rd ({ conv5 .GRBG with rgbData := List.replicate 75 7 } : BayerToRGB).rgbData
      (3 * (2 * ({ conv5 .GRBG with rgbData := List.replicate 75 7 } : BayerToRGB).width + 4) + 1)
      = some 7 := by decide
  rw [h7] at hv
  cases hv
  exact ⟨s', hd, hb, hl, hv'⟩

/-- C12: no internal state persists across calls: running `demosaic` twice in
succession leaves the same RGB buffer (the same converter) as running it once,
and the interior cells of the result are a function of the mosaic, width,
height and layout alone, independent of the contents of the RGB buffer before
the call. -/
theorem demosaic_idempotent (s : BayerToRGB) (hwf : WF s) (rgb : List Nat)
    (hl : rgb.length = s.rgbData.length) :
    ∃ s1 t1, demosaic s = some s1 ∧ demosaic s1 = some s1 ∧
      demosaic { s with rgbData := rgb } = some t1 ∧
      ∀ x y, Interior s x y →
        ∃ t, demosaicRule s x y = some t ∧ rgbAt s1 x y = some t ∧ rgbAt t1 x y = some t := by
  obtain ⟨_, _, hlen, hrgb, _⟩ := hwf
  obtain ⟨s1, hd, hfr, hj⟩ := demosaic_spec s hlen hrgb
  obtain ⟨t1, hdt, hfrt, hjt⟩ := demosaic_spec { s with rgbData := rgb } hlen
    (by simp only [hl]; exact hrgb)
  refine ⟨s1, t1, hd, demosaic_twice s s1 hlen hrgb hfr (fun j => (hj j).1), hdt,
    fun x y hint => ?_⟩
  obtain ⟨t, ht⟩ := demosaicRule_some s hlen x y hint
  refine ⟨t, ht, demosaic_rgbAt_interior s s1 hfr (fun j => (hj j).1) x y hint t ht, ?_⟩
  exact demosaic_rgbAt_interior { s with rgbData := rgb } t1 hfrt (fun j => (hjt j).1) x y hint t
    (by rw [← ht]; exact demosaicRule_congr s { s with rgbData := rgb } ⟨rfl, rfl, rfl, rfl, hl⟩ x y)

/-- Witness of C12 on the 5x5 BGGR converter, against an RGB buffer filled with
9, at pixel `(3, 3)`. -/
theorem demosaic_idempotent_witness :
    WF (conv5 .BGGR) ∧
    ∃ s1 t1, demosaic (conv5 .BGGR) = some s1 ∧ demosaic s1 = some s1 ∧
      demosaic { conv5 .BGGR with rgbData := List.replicate 75 9 } = some t1 ∧
      rgbAt t1 3 3 = rgbAt s1 3 3 := by
  refine ⟨by decide, ?_⟩
  obtain ⟨s1, t1, h1, h2, h3, h4⟩ :=
    demosaic_idempotent (conv5 .BGGR) (by decide) (List.replicate 75 9) (by decide)
  obtain ⟨t, _, ha, hb⟩ := h4 3 3 (by decide)
  exact ⟨s1, t1, h1, h2, h3, by rw [ha, hb]⟩

/-- C13: each output pixel depends only on a fixed neighbourhood of the input:
for every layout, if two mosaics of the same width and height agree on the nine
samples of the 3x3 window centred at an interior coordinate `(x, y)`, then the
rule results and the demosaiced RGB triples at `(x, y)` are equal, whatever the
two mosaics contain elsewhere. -/
theorem pixel_depends_on_window (s t : BayerToRGB) (hs : WF s) (ht : WF t)
    (hw : t.width = s.width) (hh : t.height = s.height) (hp : t.pattern = s.pattern)
    (x y : Int) (hint : Interior s x y)
    (hwin : ∀ dx dy : Int, -1 ≤ dx → dx ≤ 1 → -1 ≤ dy → dy ≤ 1 →
      sample s (x + dx) (y + dy) = sample t (x + dx) (y + dy)) :
    demosaicRule s x y = demosaicRule t x y ∧
    ∃ s' t' v, demosaic s = some s' ∧ demosaic t = some t' ∧
      rgbAt s' x y = some v ∧ rgbAt t' x y = some v := by
  have hls := hs.2.2.1
  have hlt := ht.2.2.1
  have hint' : Interior t x y := by
    unfold Interior at hint ⊢
    rw [hw, hh]
    exact hint
  obtain ⟨hx1, hx2, hy1, hy2⟩ := hint
  have hcell : ∀ dx dy : Int, -1 ≤ dx → dx ≤ 1 → -1 ≤ dy → dy ≤ 1 →
      cell s (y + dy) (x + dx) = cell t (y + dy) (x + dx) := by
    intro dx dy a1 a2 b1 b2
    exact cell_eq_of_sample s t hls hlt hw hh (y + dy) (x + dx) (by omega) (by omega)
      (by omega) (by omega) (hwin dx dy a1 a2 b1 b2)
  have c00 := hcell 0 0 (by omega) (by omega) (by omega) (by omega)
  have c0m := hcell (-1) 0 (by omega) (by omega) (by omega) (by omega)
  have c0p := hcell 1 0 (by omega) (by omega) (by omega) (by omega)
  have cm0 := hcell 0 (-1) (by omega) (by omega) (by omega) (by omega)
  have cmm := hcell (-1) (-1) (by omega) (by omega) (by omega) (by omega)
  have cmp := hcell 1 (-1) (by omega) (by omega) (by omega) (by omega)
  have cp0 := hcell 0 1 (by omega) (by omega) (by omega) (by omega)
  have cpm := hcell (-1) 1 (by omega) (by omega) (by omega) (by omega)
  have cpp := hcell 1 1 (by omega) (by omega) (by omega) (by omega)
  simp only [add_zero, Int.add_neg_one] at c00 c0m c0p cm0 cmm cmp cp0 cpm cpp
  have hrule : demosaicRule s x y = demosaicRule t x y := by
    rw [demosaicRule_eval s hls x y ⟨hx1, hx2, hy1, hy2⟩, demosaicRule_eval t hlt x y hint', hp]
    simp only [orth4, diag4, horiz2, vert2, c00, c0m, c0p, cm0, cmm, cmp, cp0, cpm, cpp]
  refine ⟨hrule, ?_⟩
  obtain ⟨s', hd, hfr, hj⟩ := demosaic_spec s hls hs.2.2.2.1
  obtain ⟨t', hdt, hfrt, hjt⟩ := demosaic_spec t hlt ht.2.2.2.1
  obtain ⟨v, hv⟩ := demosaicRule_some s hls x y ⟨hx1, hx2, hy1, hy2⟩
  exact ⟨s', t', v, hd, hdt,
    demosaic_rgbAt_interior s s' hfr (fun j => (hj j).1) x y ⟨hx1, hx2, hy1, hy2⟩ v hv,
    demosaic_rgbAt_interior t t' hfrt (fun j => (hjt j).1) x y hint' v (by rw [← hrule, hv])⟩

/-- Witness of C13: two 5x5 RGGB mosaics that differ in the corner sample
`(4, 4)` give the same pixel `(1, 1)`. -/
theorem pixel_depends_on_window_witness :
    sample (conv5 .RGGB) 4 4 ≠ sample { conv5 .RGGB with bayerData := mosaic5.set 24 99 } 4 4 ∧
    ∃ s' t' v, demosaic (conv5 .RGGB) = some s' ∧
      demosaic { conv5 .RGGB with bayerData := mosaic5.set 24 99 } = some t' ∧
      rgbAt s' 1 1 = some v ∧ rgbAt t' 1 1 = some v := by
  refine ⟨by decide, ?_⟩
  refine (pixel_depends_on_window (conv5 .RGGB)
    { conv5 .RGGB with bayerData := mosaic5.set 24 99 } (by decide) (by decide) rfl rfl rfl
    1 1 (by decide) ?_).2
  intro dx dy a1 a2 b1 b2
  have hx : dx = -1 ∨ dx = 0 ∨ dx = 1 := by omega
  have hy : dy = -1 ∨ dy = 0 ∨ dy = 1 := by omega
  rcases hx with rfl | rfl | rfl <;> rcases hy with rfl | rfl | rfl <;> decide

/-- C14: the demosaic computation is total under the data-model invariant: for
positive width and height, a mosaic of exactly `width * height` samples and an
RGB buffer of exactly `width * height * 3` bytes, and every layout, `demosaic`
returns; every mosaic index read by the scan (the centre `y * width + x` and its
eight neighbours, for `1 <= x <= width - 2`, `1 <= y <= height - 2`) lies in
`[0, width * height)` and every RGB index written lies in
`[0, width * height * 3)`, so no out-of-range access is reachable. -/
theorem demosaic_total (s : BayerToRGB) (hwf : WF s) :
    (∃ s', demosaic s = some s') ∧
    ∀ x y, Interior s x y →
      (∃ t, demosaicRule s x y = some t) ∧
      (∀ dx dy : Int, -1 ≤ dx → dx ≤ 1 → -1 ≤ dy → dy ≤ 1 →
        0 ≤ (y + dy) * s.width + (x + dx) ∧
        (y + dy) * s.width + (x + dx) < s.width * s.height ∧
        ((y + dy) * s.width + (x + dx)).toNat < s.bayerData.length ∧
        ∃ v, rd s.bayerData ((y + dy) * s.width + (x + dx)) = some v) ∧
      (∀ k : Int, 0 ≤ k → k < 3 →
        0 ≤ (y * s.width + x) * 3 + k ∧
        (y * s.width + x) * 3 + k < s.width * s.height * 3 ∧
        ((y * s.width + x) * 3 + k).toNat < s.rgbData.length) := by
  obtain ⟨_, _, hlen, hrgb, _⟩ := hwf
  obtain ⟨s', hd, _, _⟩ := demosaic_spec s hlen hrgb
  refine ⟨⟨s', hd⟩, fun x y hint => ⟨demosaicRule_some s hlen x y hint, ?_, ?_⟩⟩
  · intro dx dy a1 a2 b1 b2
    obtain ⟨hx1, hx2, hy1, hy2⟩ := hint
    obtain ⟨i0, i1⟩ := index_bound s.width s.height (y + dy) (x + dx)
      (by omega) (by omega) (by omega) (by omega)
    exact ⟨i0, i1, by omega, _, rd_cell s hlen (y + dy) (x + dx)
      (by omega) (by omega) (by omega) (by omega)⟩
  · intro k k0 k3
    obtain ⟨hx1, hx2, hy1, hy2⟩ := hint
    obtain ⟨i0, i1⟩ := index_bound s.width s.height y x
      (by omega) (by omega) (by omega) (by omega)
    exact ⟨by omega, by omega, by omega⟩

/-- Witness of C14 on the 5x5 GBRG converter: the read of the lower right
neighbour of pixel `(3, 3)` and the write of its blue byte are in range. -/
theorem demosaic_total_witness :
    WF (conv5 .GBRG) ∧ (∃ s', demosaic (conv5 .GBRG) = some s') ∧
    (3 + 1) * (conv5 .GBRG).width + (3 + 1) < (conv5 .GBRG).width * (conv5 .GBRG).height ∧
    (3 * (conv5 .GBRG).width + 3) * 3 + 2 <
      (conv5 .GBRG).width * (conv5 .GBRG).height * 3 := by
  have h := demosaic_total (conv5 .GBRG) (by decide)
  have h33 := h.2 3 3 (by decide)
  exact ⟨by decide, h.1,
    (h33.2.1 1 1 (by decide) (by decide) (by decide) (by decide)).2.1,
    (h33.2.2 2 (by decide) (by decide)).2.1⟩

/-- C15: shape is preserved and the writer's output has the stated form: the RGB
buffer of a constructed converter has exactly `width * height * 3` bytes before
and after `demosaic` (with the width and height of the mosaic), and the bytes
produced by `saveRGBImage` are the ASCII header `P6\n<width> <height>\n255\n`
(width and height in decimal) followed by exactly those `width * height * 3`
bytes in row-major, R,G,B-interleaved order. -/
theorem shape_and_ppm_output (w h : Int) (p : BayerPattern) (s0 : BayerToRGB)
    (mosaic : List Nat) (hnew : BayerToRGB.new w h p = some s0)
    (hm : (mosaic.length : Int) = w * h) :
    (s0.rgbData.length : Int) = w * h * 3 ∧
    ∃ s' out, demosaic { s0 with bayerData := mosaic } = some s' ∧
      s'.width = w ∧ s'.height = h ∧ (s'.bayerData.length : Int) = w * h ∧
      (s'.rgbData.length : Int) = w * h * 3 ∧
      saveRGBImage s' true = some (some out, true) ∧
      out = ppmHeaderBytes w h ++ s'.rgbData ∧
      (out.length : Int) = (ppmHeaderBytes w h).length + w * h * 3 ∧
      (∀ x y, 0 ≤ x → x < w → 0 ≤ y → y < h →
        ∃ r g b, rgbAt s' x y = some (r, g, b) ∧
          out[(ppmHeaderBytes w h).length + (3 * (y * w + x)).toNat]? = some r ∧
          out[(ppmHeaderBytes w h).length + (3 * (y * w + x)).toNat + 1]? = some g ∧
          out[(ppmHeaderBytes w h).length + (3 * (y * w + x)).toNat + 2]? = some b) ∧
      ppmHeader 640 480 = "P6\n640 480\n255\n" ∧
      ppmHeaderBytes 640 480 = [80, 54, 10, 54, 52, 48, 32, 52, 56, 48, 10, 50, 53, 53, 10] := by
  obtain ⟨h0, _, rfl⟩ := new_eq w h p s0 hnew
  have h3 : 0 ≤ w * h * 3 := by omega
  have hl0 : ((List.replicate (w * h * 3).toNat 0).length : Int) = w * h * 3 := by
    simp only [List.length_replicate]; omega
  obtain ⟨s', hd, hfr, _⟩ := demosaic_spec
    { width := w, height := h, pattern := p, bayerData := mosaic,
      rgbData := List.replicate (w * h * 3).toNat 0 } hm hl0
  obtain ⟨hw', hh', _, hb', hl'⟩ := hfr
  simp only at hw' hh' hb' hl'
  have hlen' : (s'.rgbData.length : Int) = s'.width * s'.height * 3 := by
    rw [hl', hw', hh']; exact hl0
  refine ⟨hl0, s', _, hd, hw', hh', by rw [hb']; exact hm, by rw [hl']; exact hl0,
    saveRGBImage_ok s' hlen', by rw [hw', hh'], ?_, ?_, by decide, by decide⟩
  · rw [hw', hh', List.length_append, hl']
    push_cast
    omega
  · intro x y hx0 hx hy0 hy
    obtain ⟨r, g, b, hr, b0, b1, b2⟩ := rgbAt_in_range s' hlen' x y hx0 (by omega) hy0 (by omega)
    rw [hw'] at b0 b1 b2
    refine ⟨r, g, b, hr, ?_, ?_, ?_⟩
    · rw [hw', hh', List.getElem?_append_right (by omega)]
      simpa using b0
    · rw [hw', hh', List.getElem?_append_right (by omega)]
      rw [← b1]
      congr 1
      omega
    · rw [hw', hh', List.getElem?_append_right (by omega)]
      rw [← b2]
      congr 1
      omega

/-- Witness of C15 on a fresh 4x3 RGGB converter. -/
theorem shape_and_ppm_output_witness :
    ∃ s0, BayerToRGB.new 4 3 .RGGB = some s0 ∧
      ∃ s' out, demosaic { s0 with bayerData := [1, 2, 3, 4, 5, 6, 7, 8, 9, 10, 11, 12] } = some s' ∧
        saveRGBImage s' true = some (some out, true) ∧
        out = [80, 54, 10, 52, 32, 51, 10, 50, 53, 53, 10] ++ s'.rgbData ∧
        (out.length : Int) = 11 + 36 := by
  refine ⟨_, rfl, ?_⟩
  obtain ⟨_, s', out, hd, _, _, _, _, hs, ho, hl, _⟩ :=
    shape_and_ppm_output 4 3 .RGGB _ [1, 2, 3, 4, 5, 6, 7, 8, 9, 10, 11, 12] rfl (by decide)
  have hb : ppmHeaderBytes 4 3 = [80, 54, 10, 52, 32, 51, 10, 50, 53, 53, 10] := by decide
  rw [hb] at ho hl
  exact ⟨s', out, hd, hs, ho, hl⟩

/-- C16: configuration errors abort before any buffer allocation or input
reading: for every argument list with a valid argument count (4 or 5 arguments
after the program name), if the parsed width is `<= 0` or the parsed height is
`<= 0`, or the layout token is not one of the four valid tokens, `main`
terminates with status 1 without constructing the converter (no mosaic or RGB
buffer is allocated), without reading the input file and without writing the
output file, whatever the files contain. -/
theorem config_errors_abort_early (a0 a1 a2 a3 a4 : String) (rest : List String)
    (readFile : String → Option (List Nat)) (canCreate : String → Bool) (wv hv : Int)
    (hrest : rest.length ≤ 1) (hw : atoi a1 = some wv) (hh : atoi a2 = some hv)
    (hbad : wv ≤ 0 ∨ hv ≤ 0 ∨ (a3 ≠ "RGGB" ∧ a3 ≠ "BGGR" ∧ a3 ≠ "GRBG" ∧ a3 ≠ "GBRG")) :
    main (a0 :: a1 :: a2 :: a3 :: a4 :: rest) readFile canCreate =
      some { status := 1, converter := none, inputRead := false, output := none } := by
  match rest, hrest with
  | [], _ => exact mainBody_config_error a1 a2 a3 a4 _ readFile canCreate wv hv hw hh hbad
  | [a5], _ => exact mainBody_config_error a1 a2 a3 a4 a5 readFile canCreate wv hv hw hh hbad
  | _ :: _ :: _, h => simp at h

/-- Witness of C16: a run with height 0 and a readable input file. -/
theorem config_errors_abort_early_witness :
    atoi "640" = some 640 ∧ atoi "0" = some 0 ∧
    main ["bayer", "640", "0", "RGGB", "in.raw", "out.ppm"]
        (fun _ => some (List.replicate 9 100)) (fun _ => true) =
      some { status := 1, converter := none, inputRead := false, output := none } :=
  ⟨by decide, by decide,
    config_errors_abort_early "bayer" "640" "0" "RGGB" "in.raw" ["out.ppm"]
      (fun _ => some (List.replicate 9 100)) (fun _ => true) 640 0 (by decide) (by decide)
      (by decide) (Or.inr (Or.inl (by decide)))⟩

/-- C17: the four hand-written rules are two pairs of colour-swapped twins: at
every interior `(x, y)` of every mosaic, `demosaicBGGR` returns `(r, g, b)`
exactly when `demosaicRGGB` returns `(b, g, r)`, and `demosaicGBRG` returns
`(r, g, b)` exactly when `demosaicGRBG` returns `(b, g, r)`; hence, from the same
mosaic and a zero-filled RGB buffer, the BGGR (respectively GBRG) demosaiced
image is the RGGB (respectively GRBG) demosaiced image with the red and blue
channels exchanged at every pixel. -/
theorem colour_swapped_twins (s : BayerToRGB) (hwf : WF s) :
    (∀ x y, Interior s x y → ∀ r g b : Nat,
      (demosaicBGGR s x y = some (r, g, b) ↔ demosaicRGGB s x y = some (b, g, r)) ∧
      (demosaicGBRG s x y = some (r, g, b) ↔ demosaicGRBG s x y = some (b, g, r))) ∧
    ((∀ v ∈ s.rgbData, v = 0) →
      (∃ s1 s2, demosaic { s with pattern := .RGGB } = some s1 ∧
        demosaic { s with pattern := .BGGR } = some s2 ∧
        ∀ x y, 0 ≤ x → x < s.width → 0 ≤ y → y < s.height →
          ∃ r g b, rgbAt s1 x y = some (r, g, b) ∧ rgbAt s2 x y = some (b, g, r)) ∧
      (∃ s3 s4, demosaic { s with pattern := .GRBG } = some s3 ∧
        demosaic { s with pattern := .GBRG } = some s4 ∧
        ∀ x y, 0 ≤ x → x < s.width → 0 ≤ y → y < s.height →
          ∃ r g b, rgbAt s3 x y = some (r, g, b) ∧ rgbAt s4 x y = some (b, g, r))) := by
  have hlen := hwf.2.2.1
  refine ⟨fun x y hint r g b => ⟨?_, ?_⟩, fun hz => ⟨?_, ?_⟩⟩
  · rw [bggr_is_swapped_rggb s hlen x y hint]
    exact map_swapRB_eq_some _ r g b
  · rw [gbrg_is_swapped_grbg s hlen x y hint]
    exact map_swapRB_eq_some _ r g b
  · exact twin_images s hwf hz .RGGB .BGGR
      (fun x y hint => bggr_is_swapped_rggb { s with pattern := .RGGB } hlen x y hint)
  · exact twin_images s hwf hz .GRBG .GBRG
      (fun x y hint => gbrg_is_swapped_grbg { s with pattern := .GRBG } hlen x y hint)

/-- Witness of C17 on the 5x5 mosaic: the rules at pixel `(2, 1)` and the two
images at pixel `(3, 3)`. -/
theorem colour_swapped_twins_witness :
    WF (conv5 .RGGB) ∧ demosaicRGGB (conv5 .RGGB) 2 1 = some (10, 30, 40) ∧
    demosaicBGGR (conv5 .RGGB) 2 1 = some (40, 30, 10) ∧
    ∃ s1 s2, demosaic (conv5 .RGGB) = some s1 ∧ demosaic (conv5 .BGGR) = some s2 ∧
      ∃ r g b, rgbAt s1 3 3 = some (r, g, b) ∧ rgbAt s2 3 3 = some (b, g, r) := by
  have h := colour_swapped_twins (conv5 .RGGB) (by decide)
  have hr : demosaicRGGB (conv5 .RGGB) 2 1 = some (10, 30, 40) := by decide
  obtain ⟨s1, s2, h1, h2, hpix⟩ := (h.2 (by decide)).1
  exact ⟨by decide, hr, ((h.1 2 1 (by decide) 40 30 10).1).2 hr, s1, s2, h1, h2,
    hpix 3 3 (by decide) (by decide) (by decide) (by decide)⟩

/-- C18: interpolation never leaves the range of its inputs: for every layout,
every mosaic of 8-bit samples and every interior `(x, y)`, each of the three
output channels at `(x, y)` is at least the minimum and at most the maximum of
the nine mosaic samples in the 3x3 window centred at `(x, y)`; every averaged
value is at most 255 before it is narrowed to 8 bits, and a mosaic whose samples
all equal `v` yields `(v, v, v)`. -/
theorem interpolation_within_window_range (s : BayerToRGB) (hwf : WF s) (x y : Int)
    (hint : Interior s x y) :
    ∃ (s' : BayerToRGB) (r g b c n so w e nw ne sw se : Nat),
      demosaic s = some s' ∧ rgbAt s' x y = some (r, g, b) ∧
      demosaicRule s x y = some (r, g, b) ∧ sample s x y = some c ∧
      sample s x (y - 1) = some n ∧ sample s x (y + 1) = some so ∧
      sample s (x - 1) y = some w ∧ sample s (x + 1) y = some e ∧
      sample s (x - 1) (y - 1) = some nw ∧ sample s (x + 1) (y - 1) = some ne ∧
      sample s (x - 1) (y + 1) = some sw ∧ sample s (x + 1) (y + 1) = some se ∧
      min9 c n so w e nw ne sw se ≤ r ∧ r ≤ max9 c n so w e nw ne sw se ∧
      min9 c n so w e nw ne sw se ≤ g ∧ g ≤ max9 c n so w e nw ne sw se ∧
      min9 c n so w e nw ne sw se ≤ b ∧ b ≤ max9 c n so w e nw ne sw se ∧
      (n + so + w + e) / 4 ≤ 255 ∧ (nw + ne + sw + se) / 4 ≤ 255 ∧
      (w + e) / 2 ≤ 255 ∧ (n + so) / 2 ≤ 255 ∧
      r ≤ 255 ∧ g ≤ 255 ∧ b ≤ 255 ∧
      ∀ v, (∀ u ∈ s.bayerData, u = v) → r = v ∧ g = v ∧ b = v := by
  have hlen := hwf.2.2.1
  have he := demosaicRule_eval s hlen x y hint
  obtain ⟨c00, c0m, c0p, cm0, cmm, cmp, cp0, cpm, cpp⟩ := window s hlen x y hint
  obtain ⟨ho, hd, hh, hv⟩ := averages_exact s hwf x y hint
  obtain ⟨s', hdem, hfr, hj⟩ := demosaic_spec s hlen hwf.2.2.2.1
  obtain ⟨⟨r, g, b⟩, ht⟩ := demosaicRule_some s hlen x y hint
  have hrgb := demosaic_rgbAt_interior s s' hfr (fun j => (hj j).1) x y hint _ ht
  obtain ⟨hx1, hx2, hy1, hy2⟩ := hint
  have l00 := cell_lt s hwf y x (by omega) (by omega) (by omega) (by omega)
  have l0m := cell_lt s hwf y (x - 1) (by omega) (by omega) (by omega) (by omega)
  have l0p := cell_lt s hwf y (x + 1) (by omega) (by omega) (by omega) (by omega)
  have lm0 := cell_lt s hwf (y - 1) x (by omega) (by omega) (by omega) (by omega)
  have lmm := cell_lt s hwf (y - 1) (x - 1) (by omega) (by omega) (by omega) (by omega)
  have lmp := cell_lt s hwf (y - 1) (x + 1) (by omega) (by omega) (by omega) (by omega)
  have lp0 := cell_lt s hwf (y + 1) x (by omega) (by omega) (by omega) (by omega)
  have lpm := cell_lt s hwf (y + 1) (x - 1) (by omega) (by omega) (by omega) (by omega)
  have lpp := cell_lt s hwf (y + 1) (x + 1) (by omega) (by omega) (by omega) (by omega)
  have m00 := cell_mem s hlen y x (by omega) (by omega) (by omega) (by omega)
  have m0m := cell_mem s hlen y (x - 1) (by omega) (by omega) (by omega) (by omega)
  have m0p := cell_mem s hlen y (x + 1) (by omega) (by omega) (by omega) (by omega)
  have mm0 := cell_mem s hlen (y - 1) x (by omega) (by omega) (by omega) (by omega)
  have mmm := cell_mem s hlen (y - 1) (x - 1) (by omega) (by omega) (by omega) (by omega)
  have mmp := cell_mem s hlen (y - 1) (x + 1) (by omega) (by omega) (by omega) (by omega)
  have mp0 := cell_mem s hlen (y + 1) x (by omega) (by omega) (by omega) (by omega)
  have mpm := cell_mem s hlen (y + 1) (x - 1) (by omega) (by omega) (by omega) (by omega)
  have mpp := cell_mem s hlen (y + 1) (x + 1) (by omega) (by omega) (by omega) (by omega)
  have hsrc : ∀ t : Nat, (t = r ∨ t = g ∨ t = b) →
      t = cell s y x ∨
      t = (cell s (y - 1) x + cell s (y + 1) x + cell s y (x - 1) + cell s y (x + 1)) / 4 ∨
      t = (cell s (y - 1) (x - 1) + cell s (y - 1) (x + 1) + cell s (y + 1) (x - 1) +
        cell s (y + 1) (x + 1)) / 4 ∨
      t = (cell s y (x - 1) + cell s y (x + 1)) / 2 ∨
      t = (cell s (y - 1) x + cell s (y + 1) x) / 2 := by
    intro t htr
    rw [he] at ht
    have ht' := Option.some.inj ht
    rw [← ho, ← hd, ← hh, ← hv]
    clear ho hd hh hv he ht hj hrgb hdem
    cases hcol : cellColor s.pattern y x <;> rw [hcol] at ht' <;> simp only at ht'
    · simp only [Prod.mk.injEq] at ht'
      obtain ⟨h1, h2, h3⟩ := ht'
      rcases htr with h | h | h <;> subst h <;> simp [← h1, ← h2, ← h3]
    · split_ifs at ht' <;> simp only [Prod.mk.injEq] at ht' <;> obtain ⟨h1, h2, h3⟩ := ht' <;>
        rcases htr with h | h | h <;> subst h <;> simp [← h1, ← h2, ← h3]
    · simp only [Prod.mk.injEq] at ht'
      obtain ⟨h1, h2, h3⟩ := ht'
      rcases htr with h | h | h <;> subst h <;> simp [← h1, ← h2, ← h3]
  obtain ⟨n1, n2, n3, n4, n5, n6, n7, n8, n9⟩ :=
    min9_le (cell s y x) (cell s (y - 1) x) (cell s (y + 1) x) (cell s y (x - 1))
      (cell s y (x + 1)) (cell s (y - 1) (x - 1)) (cell s (y - 1) (x + 1))
      (cell s (y + 1) (x - 1)) (cell s (y + 1) (x + 1))
  obtain ⟨x1, x2, x3, x4, x5, x6, x7, x8, x9⟩ :=
    le_max9 (cell s y x) (cell s (y - 1) x) (cell s (y + 1) x) (cell s y (x - 1))
      (cell s y (x + 1)) (cell s (y - 1) (x - 1)) (cell s (y - 1) (x + 1))
      (cell s (y + 1) (x - 1)) (cell s (y + 1) (x + 1))
  have hbound : ∀ t : Nat, (t = r ∨ t = g ∨ t = b) →
      min9 (cell s y x) (cell s (y - 1) x) (cell s (y + 1) x) (cell s y (x - 1))
        (cell s y (x + 1)) (cell s (y - 1) (x - 1)) (cell s (y - 1) (x + 1))
        (cell s (y + 1) (x - 1)) (cell s (y + 1) (x + 1)) ≤ t ∧
      t ≤ max9 (cell s y x) (cell s (y - 1) x) (cell s (y + 1) x) (cell s y (x - 1))
        (cell s y (x + 1)) (cell s (y - 1) (x - 1)) (cell s (y - 1) (x + 1))
        (cell s (y + 1) (x - 1)) (cell s (y + 1) (x + 1)) ∧ t ≤ 255 ∧
      ∀ v, (∀ u ∈ s.bayerData, u = v) → t = v := by
    intro t htr
    have hs := hsrc t htr
    refine ⟨?_, ?_, ?_, ?_⟩
    · exact (chan_range _ _ _ _ _ _ _ _ _ _ _ t ⟨n1, x1⟩ ⟨n2, x2⟩ ⟨n3, x3⟩ ⟨n4, x4⟩ ⟨n5, x5⟩
        ⟨n6, x6⟩ ⟨n7, x7⟩ ⟨n8, x8⟩ ⟨n9, x9⟩ hs).1
    · exact (chan_range _ _ _ _ _ _ _ _ _ _ _ t ⟨n1, x1⟩ ⟨n2, x2⟩ ⟨n3, x3⟩ ⟨n4, x4⟩ ⟨n5, x5⟩
        ⟨n6, x6⟩ ⟨n7, x7⟩ ⟨n8, x8⟩ ⟨n9, x9⟩ hs).2
    · exact (chan_range 0 255 _ _ _ _ _ _ _ _ _ t ⟨Nat.zero_le _, Nat.le_of_lt_succ l00⟩
        ⟨Nat.zero_le _, Nat.le_of_lt_succ lm0⟩ ⟨Nat.zero_le _, Nat.le_of_lt_succ lp0⟩
        ⟨Nat.zero_le _, Nat.le_of_lt_succ l0m⟩ ⟨Nat.zero_le _, Nat.le_of_lt_succ l0p⟩
        ⟨Nat.zero_le _, Nat.le_of_lt_succ lmm⟩ ⟨Nat.zero_le _, Nat.le_of_lt_succ lmp⟩
        ⟨Nat.zero_le _, Nat.le_of_lt_succ lpm⟩ ⟨Nat.zero_le _, Nat.le_of_lt_succ lpp⟩ hs).2
    · intro v hall
      have q : ∀ u ∈ s.bayerData, v ≤ u ∧ u ≤ v := fun u hu => by
        rw [hall u hu]
        exact ⟨Nat.le_refl v, Nat.le_refl v⟩
      have := chan_range v v _ _ _ _ _ _ _ _ _ t (q _ m00) (q _ mm0) (q _ mp0) (q _ m0m)
        (q _ m0p) (q _ mmm) (q _ mmp) (q _ mpm) (q _ mpp) hs
      exact Nat.le_antisymm this.2 this.1
  have hq : ∀ a b c d : Nat, a < 256 → b < 256 → c < 256 → d < 256 →
      (a + b + c + d) / 4 ≤ 255 ∧ (a + b) / 2 ≤ 255 := by
    intro a b c d ha hb hc hd
    omega
  obtain ⟨r1, r2, r3, r4⟩ := hbound r (Or.inl rfl)
  obtain ⟨g1, g2, g3, g4⟩ := hbound g (Or.inr (Or.inl rfl))
  obtain ⟨b1, b2, b3, b4⟩ := hbound b (Or.inr (Or.inr rfl))
  exact ⟨s', r, g, b, _, _, _, _, _, _, _, _, _, hdem, hrgb, ht, c00, cm0, cp0, c0m, c0p,
    cmm, cmp, cpm, cpp, r1, r2, g1, g2, b1, b2, (hq _ _ _ _ lm0 lp0 l0m l0p).1,
    (hq _ _ _ _ lmm lmp lpm lpp).1, (hq _ _ _ _ l0m l0p l0m l0p).2,
    (hq _ _ _ _ lm0 lp0 lm0 lp0).2, r3, g3, b3, fun v hall => ⟨r4 v hall, g4 v hall, b4 v hall⟩⟩

/-- Witness of C18 on the 5x5 GRBG converter, at pixel `(2, 2)`, whose window
holds the samples 10, 20, 30 and 40. -/
theorem interpolation_within_window_range_witness :
    WF (conv5 .GRBG) ∧ Interior (conv5 .GRBG) 2 2 ∧
    ∃ r g b : Nat, demosaicRule (conv5 .GRBG) 2 2 = some (r, g, b) ∧
      10 ≤ r ∧ r ≤ 40 ∧ 10 ≤ g ∧ g ≤ 40 ∧ 10 ≤ b ∧ b ≤ 40 := by
  refine ⟨by decide, by decide, ?_⟩
  obtain ⟨s', r, g, b, c, n, so, w, e, nw, ne, sw, se, _, _, hr, h0, h1, h2, h3, h4, h5, h6,
      h7, h8, r1, r2, g1, g2, b1, b2, _⟩ :=
    interpolation_within_window_range (conv5 .GRBG) (by decide) 2 2 (by decide)
  have e0 : sample (conv5 .GRBG) 2 2 = some 10 := by decide
  have e1 : sample (conv5 .GRBG) 2 (2 - 1) = some 30 := by decide
  have e2 : sample (conv5 .GRBG) 2 (2 + 1) = some 30 := by decide
  have e3 : sample (conv5 .GRBG) (2 - 1) 2 = some 20 := by decide
  have e4 : sample (conv5 .GRBG) (2 + 1) 2 = some 20 := by decide
  have e5 : sample (conv5 .GRBG) (2 - 1) (2 - 1) = some 40 := by decide
  have e6 : sample (conv5 .GRBG) (2 + 1) (2 - 1) = some 40 := by decide
  have e7 : sample (conv5 .GRBG) (2 - 1) (2 + 1) = some 40 := by decide
  have e8 : sample (conv5 .GRBG) (2 + 1) (2 + 1) = some 40 := by decide
  rw [e0] at h0; rw [e1] at h1; rw [e2] at h2; rw [e3] at h3; rw [e4] at h4
  rw [e5] at h5; rw [e6] at h6; rw [e7] at h7; rw [e8] at h8
  cases h0; cases h1; cases h2; cases h3; cases h4; cases h5; cases h6; cases h7; cases h8
  have hmin : min9 10 30 30 20 20 40 40 40 40 = 10 := by decide
  have hmax : max9 10 30 30 20 20 40 40 40 40 = 40 := by decide
  rw [hmin] at r1 g1 b1
  rw [hmax] at r2 g2 b2
  exact ⟨r, g, b, hr, r1, r2, g1, g2, b1, b2⟩

/-- C19: demosaicing is monotone in the input: for every layout, width and
height, if mosaic `A` is pointwise at most mosaic `B` (sample by sample, 8-bit
samples), then after `demosaic` on freshly constructed converters every byte of
the RGB buffer of `A` is at most the corresponding byte of the RGB buffer of
`B`. -/
theorem demosaic_monotone (w h : Int) (p : BayerPattern) (s0 : BayerToRGB) (A B : List Nat)
    (hnew : BayerToRGB.new w h p = some s0)
    (hA : (A.length : Int) = w * h) (hB : (B.length : Int) = w * h)
    (hB8 : ∀ v ∈ B, v < 256) (hle : ∀ q ∈ A.zip B, q.1 ≤ q.2) :
    ∃ a' b' : BayerToRGB, demosaic { s0 with bayerData := A } = some a' ∧
      demosaic { s0 with bayerData := B } = some b' ∧
      (a'.rgbData.length : Int) = w * h * 3 ∧ (b'.rgbData.length : Int) = w * h * 3 ∧
      ∀ j va vb : Nat, a'.rgbData[j]? = some va → b'.rgbData[j]? = some vb → va ≤ vb := by
  obtain ⟨h0, _, rfl⟩ := new_eq w h p s0 hnew
  have hl0 : ((List.replicate (w * h * 3).toNat 0).length : Int) = w * h * 3 := by
    simp only [List.length_replicate]; omega
  have hAB : A.length = B.length := by omega
  by_cases hdeg : w < 3 ∨ h < 3
  · refine ⟨_, _, demosaic_degenerate _ hdeg, demosaic_degenerate _ hdeg, hl0, hl0,
      fun j va vb hva hvb => ?_⟩
    simp only at hva hvb
    rw [hva] at hvb
    exact Nat.le_of_eq (Option.some.inj hvb)
  · have hw : 0 < w := by omega
    have hh : 0 < h := by omega
    obtain ⟨a', b', hda, hdb, la, lb, hbytes⟩ := demosaic_mono_states
      ⟨w, h, p, A, List.replicate (w * h * 3).toNat 0⟩
      ⟨w, h, p, B, List.replicate (w * h * 3).toNat 0⟩
      ⟨hw, hh, hA, hl0, zip_le_bound A B hAB hle hB8⟩ ⟨hw, hh, hB, hl0, hB8⟩
      rfl rfl rfl rfl hle
    refine ⟨a', b', hda, hdb, ?_, ?_, hbytes⟩
    · rw [la]; exact hl0
    · rw [lb]; exact hl0

/-- Witness of C19 on fresh 3x3 GRBG converters with the mosaics of all 1 and
all 2. -/
theorem demosaic_monotone_witness :
    ∃ s0, BayerToRGB.new 3 3 .GRBG = some s0 ∧
      ∃ a' b' : BayerToRGB, demosaic { s0 with bayerData := List.replicate 9 1 } = some a' ∧
        demosaic { s0 with bayerData := List.replicate 9 2 } = some b' ∧
        ∀ j va vb : Nat, a'.rgbData[j]? = some va → b'.rgbData[j]? = some vb → va ≤ vb := by
  refine ⟨_, rfl, ?_⟩
  obtain ⟨a', b', ha, hb, _, _, hle⟩ :=
    demosaic_monotone 3 3 .GRBG _ (List.replicate 9 1) (List.replicate 9 2) rfl
      (by decide) (by decide) (by decide) (by decide)
  exact ⟨a', b', ha, hb, hle⟩

end BayerRaw
